import Mathlib

/-!
# Verification of the snapback session/rollback core

Shallow embedding of the snapback SDK's session core:
* SHA-256 (the digest used throughout `node:crypto` call sites),
* the content-addressable `FilesystemBlobStore` (`src/storage/BlobStore.fs.ts`),
* the session fingerprint (`src/cache/lru-cache.ts`),
* the rollback engine (`src/session/SessionRollback.ts`),
* the recovery sweeper (`src/session/SessionRecovery.ts`),
* the session manager's path normalization, tracking and deferred hashing
  (`SessionManager`).

Filesystems are modelled as association lists from absolute path strings to
file data; fallible I/O primitives consult an explicit error oracle so that
per-file failure behaviour can be stated and proved.
-/

set_option maxRecDepth 100000

namespace Snapback

/-! ## SHA-256 over byte lists (as used via `node:crypto` `createHash("sha256")`) -/

/-- A byte: a natural number below 256. -/
abbrev Bytes := List Nat

/-- Truncate to a 32-bit word. -/
def w32 (n : Nat) : Nat := n % 4294967296

/-- 32-bit right rotation. -/
def rotr (n x : Nat) : Nat := w32 ((x >>> n) ||| (x <<< (32 - n)))

/-- SHA-256 Σ₀. -/
def bSig0 (x : Nat) : Nat := (rotr 2 x) ^^^ (rotr 13 x) ^^^ (rotr 22 x)

/-- SHA-256 Σ₁. -/
def bSig1 (x : Nat) : Nat := (rotr 6 x) ^^^ (rotr 11 x) ^^^ (rotr 25 x)

/-- SHA-256 σ₀. -/
def sSig0 (x : Nat) : Nat := (rotr 7 x) ^^^ (rotr 18 x) ^^^ (x >>> 3)

/-- SHA-256 σ₁. -/
def sSig1 (x : Nat) : Nat := (rotr 17 x) ^^^ (rotr 19 x) ^^^ (x >>> 10)

/-- SHA-256 Ch. -/
def chF (x y z : Nat) : Nat := (x &&& y) ^^^ ((x ^^^ 4294967295) &&& z)

/-- SHA-256 Maj. -/
def majF (x y z : Nat) : Nat := (x &&& y) ^^^ (x &&& z) ^^^ (y &&& z)

/-- SHA-256 round constants (FIPS 180-4, written in decimal). -/
def sha256K : List Nat :=
  [1116352408, 1899447441, 3049323471, 3921009573, 961987163,
   1508970993, 2453635748, 2870763221, 3624381080, 310598401,
   607225278, 1426881987, 1925078388, 2162078206, 2614888103,
   3248222580, 3835390401, 4022224774, 264347078, 604807628,
   770255983, 1249150122, 1555081692, 1996064986, 2554220882,
   2821834349, 2952996808, 3210313671, 3336571891, 3584528711,
   113926993, 338241895, 666307205, 773529912, 1294757372,
   1396182291, 1695183700, 1986661051, 2177026350, 2456956037,
   2730485921, 2820302411, 3259730800, 3345764771, 3516065817,
   3600352804, 4094571909, 275423344, 430227734, 506948616,
   659060556, 883997877, 958139571, 1322822218, 1537002063,
   1747873779, 1955562222, 2024104815, 2227730452, 2361852424,
   2428436474, 2756734187, 3204031479, 3329325298]

/-- SHA-256 initial hash state (FIPS 180-4, written in decimal). -/
def sha256H0 : List Nat :=
  [1779033703, 3144134277, 1013904242, 2773480762,
   1359893119, 2600822924, 528734635, 1541459225]

/-- Group a byte list into big-endian 32-bit words. -/
def toWords : List Nat → List Nat
  | a :: b :: c :: d :: rest => (((a * 256 + b) * 256 + c) * 256 + d) :: toWords rest
  | _ => []

/-- Extend the message schedule by `fuel` more words. -/
def msgSchedGo : Nat → List Nat → List Nat
  | 0, w => w
  | fuel + 1, w =>
    let i := w.length
    let s0 := sSig0 (w.getD (i - 15) 0)
    let s1 := sSig1 (w.getD (i - 2) 0)
    msgSchedGo fuel (w ++ [w32 (w.getD (i - 16) 0 + s0 + w.getD (i - 7) 0 + s1)])

/-- The full 64-entry message schedule of one block. -/
def msgSched (w16 : List Nat) : List Nat := msgSchedGo 48 w16

/-- One SHA-256 compression round. -/
def sha256Round (st : List Nat) (kw : Nat × Nat) : List Nat :=
  match st with
  | [a, b, c, d, e, f, g, h] =>
    let t1 := w32 (h + bSig1 e + chF e f g + kw.1 + kw.2)
    let t2 := w32 (bSig0 a + majF a b c)
    [w32 (t1 + t2), a, b, c, w32 (d + t1), e, f, g]
  | other => other

/-- Compress one 64-byte block into the running hash state. -/
def sha256Compress (hs : Bytes) (block : Bytes) : List Nat :=
  let w := msgSched (toWords block)
  let fin := (sha256K.zip w).foldl sha256Round hs
  (hs.zip fin).map (fun p => w32 (p.1 + p.2))

/-- Split a message into 64-byte blocks, with explicit fuel for structural recursion. -/
def chunks64Go : Nat → Bytes → List Bytes
  | 0, _ => []
  | fuel + 1, l => if l = [] then [] else (l.take 64) :: chunks64Go fuel (l.drop 64)

/-- Split a padded message into 64-byte blocks. -/
def chunks64 (l : Bytes) : List Bytes := chunks64Go (l.length / 64 + 1) l

/-- Big-endian encoding of `n` in `k` bytes. -/
def beBytes (k n : Nat) : Bytes :=
  match k with
  | 0 => []
  | k + 1 => beBytes k (n / 256) ++ [n % 256]

/-- SHA-256 padding: 0x80, zeros, then the 64-bit big-endian bit length. -/
def sha256Pad (msg : Bytes) : Bytes :=
  let l := msg.length
  let zeros := (119 - (l % 64)) % 64
  msg ++ [128] ++ List.replicate zeros 0 ++ beBytes 8 (l * 8)

/-- The SHA-256 state (eight 32-bit words) of a byte message. -/
def sha256Words (msg : Bytes) : List Nat :=
  (chunks64 (sha256Pad msg)).foldl sha256Compress sha256H0

/-- One lowercase hex digit. -/
def hexDigit (n : Nat) : Char :=
  if n < 10 then Char.ofNat (48 + n) else Char.ofNat (87 + n)

/-- Lowercase hex rendering of a 32-bit word (8 digits). -/
def hex8 (n : Nat) : List Char :=
  [hexDigit (n / 268435456 % 16), hexDigit (n / 16777216 % 16),
   hexDigit (n / 1048576 % 16), hexDigit (n / 65536 % 16),
   hexDigit (n / 4096 % 16), hexDigit (n / 256 % 16),
   hexDigit (n / 16 % 16), hexDigit (n % 16)]

/-- Hex SHA-256 digest of a byte message, as `crypto.createHash("sha256").digest("hex")`. -/
def sha256Hex (msg : Bytes) : String :=
  ⟨(sha256Words msg).foldr (fun wrd acc => hex8 wrd ++ acc) []⟩

/-- The UTF-8 bytes of an ASCII string (all strings hashed here are ASCII). -/
def strBytes (s : String) : Bytes := s.data.map Char.toNat

/-! ## Data model (`@snapback-oss/contracts/session`) -/

/-- `ChangeOp`: the four file-change operations. -/
inductive ChangeOp
  | created
  | modified
  | deleted
  | renamed
deriving DecidableEq, Repr

/-- `EOLType`. -/
inductive EOLType
  | lf
  | crlf
  | cr
  | mixed
deriving DecidableEq, Repr

/-- `SessionChange`: one file event of a session manifest.  The TS field
`from` is spelled `fromPath` here (`from` is a Lean keyword). -/
structure SessionChange where
  p : String
  op : ChangeOp
  fromPath : Option String := none
  hOld : Option String := none
  hNew : Option String := none
  sizeBefore : Option Nat := none
  sizeAfter : Option Nat := none
  mtimeBefore : Option Nat := none
  mtimeAfter : Option Nat := none
  modeBefore : Option Nat := none
  modeAfter : Option Nat := none
  eolBefore : Option EOLType := none
  eolAfter : Option EOLType := none
deriving DecidableEq, Repr

/-- Placeholder change used as the default of `List.getD`. -/
def dummyChange : SessionChange := { p := "", op := .created }

/-- JavaScript `o || d` on an optional string: `undefined` and `""` are falsy. -/
def jsOr (o : Option String) (d : String) : String :=
  match o with
  | some s => if s = "" then d else s
  | none => d

/-! ## `SessionRollback.reverseChanges` (src/session/SessionRollback.ts:239-291) -/

/-- The inverse of a single change, exactly as the `switch` in
`reverseChanges` builds it from the spread copy of `change`. -/
def invertChange (change : SessionChange) : SessionChange :=
  match change.op with
  | .created => { change with op := .deleted, hOld := change.hNew, hNew := none }
  | .modified =>
    { change with
      hOld := change.hNew, hNew := change.hOld,
      sizeBefore := change.sizeAfter, sizeAfter := change.sizeBefore,
      mtimeBefore := change.mtimeAfter, mtimeAfter := change.mtimeBefore,
      modeBefore := change.modeAfter, modeAfter := change.modeBefore,
      eolBefore := change.eolAfter, eolAfter := change.eolBefore }
  | .deleted => { change with op := .created, hNew := change.hOld, hOld := none }
  | .renamed =>
    { change with
      p := jsOr change.fromPath change.p, fromPath := some change.p,
      hOld := change.hNew, hNew := change.hOld }

/-- `reverseChanges`: reverse the list, then invert each record. -/
def reverseChanges (changes : List SessionChange) : List SessionChange :=
  (changes.reverse).map invertChange

/-- The `i`-th record of the inverse list. -/
def invertedAt (changes : List SessionChange) (i : Nat) : SessionChange :=
  (reverseChanges changes).getD i dummyChange

/-- The original record that the `i`-th inverse record was built from
(position `length - 1 - i`, since the list is processed reversed). -/
def originalAt (changes : List SessionChange) (i : Nat) : SessionChange :=
  changes.getD (changes.length - 1 - i) dummyChange

/-! ## `SessionDeduplication.computeFingerprint` (src/cache/lru-cache.ts) -/

/-- The display name of an op, as interpolated into the fingerprint line. -/
def opName : ChangeOp → String
  | .created => "created"
  | .modified => "modified"
  | .deleted => "deleted"
  | .renamed => "renamed"

/-- One fingerprint item: `` `${path}:${op}:${hOld}:${hNew}` `` with `""` for
missing digests. -/
def lineOf (change : SessionChange) : String :=
  change.p ++ ":" ++ opName change.op ++ ":" ++ (change.hOld.getD "") ++ ":" ++ (change.hNew.getD "")

/-- Lexicographic order on code-point lists (JS compares strings by code
unit; identical for the ASCII strings fingerprinted here). -/
def listLtB : List Nat → List Nat → Bool
  | [], [] => false
  | [], _ :: _ => true
  | _ :: _, [] => false
  | a :: as, b :: bs => if a < b then true else if b < a then false else listLtB as bs

/-- JS `<` on strings. -/
def strLt (s t : String) : Bool := listLtB (strBytes s) (strBytes t)

/-- Insert a string into an ascending list (code-unit order, as JS `sort()`). -/
def insertStr (s : String) : List String → List String
  | [] => [s]
  | t :: rest => if strLt t s then t :: insertStr s rest else s :: t :: rest

/-- Ascending sort of strings: the result of JS `Array.prototype.sort()`. -/
def sortStrings (l : List String) : List String := l.foldr insertStr []

/-- `computeFingerprint`: `""` for an empty change list; otherwise the hex
SHA-256 of the sorted items fed to `hash.update` one after the other
(i.e. of their concatenated bytes). -/
def computeFingerprint (changes : List SessionChange) : String :=
  if changes = [] then ""
  else
    let items := sortStrings (changes.map lineOf)
    sha256Hex (items.foldl (fun acc item => acc ++ strBytes item) [])

/-- Modelled from the spec (§4.3.2): the fingerprint formula the spec states,
with the sorted items joined by a newline separator before hashing. -/
def fingerprintSpec (changes : List SessionChange) : String :=
  sha256Hex (strBytes (String.intercalate "\n" (sortStrings (changes.map lineOf))))

/-! ## Theorems for C1 -/

/-- The record-level properties claim C1 states of each inverse record,
relative to the original record it was built from. -/
def inverseSpec (changes : List SessionChange) (i : Nat) : Prop :=
  (reverseChanges changes).length = changes.length ∧
  ((originalAt changes i).op = .created →
    (invertedAt changes i).op = .deleted ∧
    (invertedAt changes i).hOld = (originalAt changes i).hNew ∧
    (invertedAt changes i).hNew = none ∧
    (invertedAt changes i).p = (originalAt changes i).p) ∧
  ((originalAt changes i).op = .modified →
    (invertedAt changes i).op = .modified ∧
    (invertedAt changes i).p = (originalAt changes i).p ∧
    (invertedAt changes i).hOld = (originalAt changes i).hNew ∧
    (invertedAt changes i).hNew = (originalAt changes i).hOld ∧
    (invertedAt changes i).sizeBefore = (originalAt changes i).sizeAfter ∧
    (invertedAt changes i).sizeAfter = (originalAt changes i).sizeBefore ∧
    (invertedAt changes i).mtimeBefore = (originalAt changes i).mtimeAfter ∧
    (invertedAt changes i).mtimeAfter = (originalAt changes i).mtimeBefore ∧
    (invertedAt changes i).modeBefore = (originalAt changes i).modeAfter ∧
    (invertedAt changes i).modeAfter = (originalAt changes i).modeBefore ∧
    (invertedAt changes i).eolBefore = (originalAt changes i).eolAfter ∧
    (invertedAt changes i).eolAfter = (originalAt changes i).eolBefore) ∧
  ((originalAt changes i).op = .deleted →
    (invertedAt changes i).op = .created ∧
    (invertedAt changes i).hNew = (originalAt changes i).hOld ∧
    (invertedAt changes i).hOld = none ∧
    (invertedAt changes i).p = (originalAt changes i).p) ∧
  (∀ f, (originalAt changes i).op = .renamed → (originalAt changes i).fromPath = some f →
    f ≠ "" →
    (invertedAt changes i).op = .renamed ∧
    (invertedAt changes i).p = f ∧
    (invertedAt changes i).fromPath = some (originalAt changes i).p ∧
    (invertedAt changes i).hOld = (originalAt changes i).hNew ∧
    (invertedAt changes i).hNew = (originalAt changes i).hOld)

/-- The `i`-th inverse record is `invertChange` of the mirrored original. -/
theorem invertedAt_eq (changes : List SessionChange) (i : Nat) (hi : i < changes.length) :
    invertedAt changes i = invertChange (originalAt changes i) := by
  have hlt : changes.length - 1 - i < changes.length := by omega
  unfold invertedAt originalAt reverseChanges
  rw [List.getD_eq_getElem?_getD, List.getElem?_map,
    List.getElem?_reverse (by simpa using hi), List.getD_eq_getElem?_getD,
    List.getElem?_eq_getElem hlt]
  rfl

/-- C1: the rollback engine computes the inverse change list by processing
`manifest.changes` in reversed order and mapping each record: created becomes
deleted with `digestBefore` set to the original `digestAfter` and
`digestAfter` cleared; modified stays modified with before/after digests,
sizes, mtimes, modes and EOL markers swapped; deleted becomes created with
`digestAfter` set to the original `digestBefore` and `digestBefore` cleared;
renamed stays renamed with `path` and `fromPath` swapped and the digest pair
swapped (for well-formed renamed records, whose `fromPath` is present and
nonempty). -/
theorem reverseChanges_inverts (changes : List SessionChange) (i : Nat)
    (hi : i < changes.length) : inverseSpec changes i := by
  have key := invertedAt_eq changes i hi
  unfold inverseSpec
  refine ⟨by simp [reverseChanges], ?_, ?_, ?_, ?_⟩
  · intro hop; rw [key]; simp [invertChange, hop]
  · intro hop; rw [key]; simp [invertChange, hop]
  · intro hop; rw [key]; simp [invertChange, hop]
  · intro f hop hfrom hne; rw [key]; simp [invertChange, hop, hfrom, jsOr, hne]

/-- Witness for C1: a concrete two-change manifest, checked at index 0
(whose mirrored original is the renamed record at position 1). -/
theorem reverseChanges_inverts_witness :
    0 < ([{ p := "a.txt", op := .modified, hOld := some "h0", hNew := some "h1" },
          { p := "new.txt", op := .renamed, fromPath := some "old.txt",
            hOld := some "h2", hNew := some "h3" }] : List SessionChange).length ∧
    inverseSpec
      [{ p := "a.txt", op := .modified, hOld := some "h0", hNew := some "h1" },
       { p := "new.txt", op := .renamed, fromPath := some "old.txt",
         hOld := some "h2", hNew := some "h3" }] 0 :=
  ⟨by decide, reverseChanges_inverts _ 0 (by decide)⟩

/-! ## Theorems for C8 -/

/-- Fingerprint bytes: feeding items to `hash.update` one by one hashes their
concatenation. -/
theorem foldl_strBytes (l : List String) (acc : String) :
    l.foldl (fun a i => a ++ strBytes i) (strBytes acc) = strBytes (l.foldl (· ++ ·) acc) := by
  induction l generalizing acc with
  | nil => rfl
  | cons s t ih =>
    simp only [List.foldl]
    rw [show strBytes acc ++ strBytes s = strBytes (acc ++ s) by
      simp [strBytes, String.data_append]]
    exact ih _

/-- C8 (amended): the fingerprint is `""` for an empty change list, and
otherwise the SHA-256 of the ascending-sorted lines
`path:op:(digestBefore or ""):(digestAfter or "")` concatenated directly,
with no separator between them. -/
theorem computeFingerprint_concat (changes : List SessionChange) :
    computeFingerprint changes =
      if changes = [] then ""
      else sha256Hex (strBytes (String.join (sortStrings (changes.map lineOf)))) := by
  unfold computeFingerprint
  by_cases h : changes = []
  · simp [h]
  · simp only [h, if_false]
    have := foldl_strBytes (sortStrings (changes.map lineOf)) ""
    simp only [strBytes, String.data] at this
    rw [show (([] : Bytes) = strBytes "") from rfl, foldl_strBytes]
    rfl

/-- Counterexample for C8: on a concrete two-change session the code's
fingerprint (no separator between the sorted lines) differs from the spec's
newline-joined formula. -/
theorem computeFingerprint_ne_spec :
    computeFingerprint
        [{ p := "a", op := .created }, { p := "b", op := .modified }] ≠
      fingerprintSpec
        [{ p := "a", op := .created }, { p := "b", op := .modified }] := by
  decide

/-! ## Filesystem model

Association lists from absolute path strings to file contents.  Directories
are implicit (`fs.mkdir` with `recursive: true` on the paths used here only
fails on exotic conditions and is modelled as a no-op).  Fallible primitives
consult an explicit `Oracle` deciding which operations throw; thrown errors
are represented by their `code` string. -/

/-- A filesystem: path → content association list (first entry wins). -/
abbrev FS (α : Type) := List (String × α)

/-- Look up a path. -/
def fsLookup (fs : FS α) (p : String) : Option α :=
  (fs.find? (fun e => e.1 == p)).map (·.2)

/-- `existsSync`. -/
def fsExists (fs : FS α) (p : String) : Bool := (fsLookup fs p).isSome

/-- Remove a path. -/
def fsRemove (fs : FS α) (p : String) : FS α := fs.filter (fun e => e.1 != p)

/-- Create or overwrite a path. -/
def fsSet (fs : FS α) (p : String) (d : α) : FS α := (p, d) :: fsRemove fs p

/-- Which I/O operations fail: `renameErr src dst = some code` makes
`fs.rename` throw `code` (`"EXDEV"` triggers the copy+unlink fallback),
`writeErr p` makes `fs.writeFile` throw, `unlinkErr p` makes `fs.unlink`
throw. -/
structure Oracle where
  renameErr : String → String → Option String
  writeErr : String → Bool
  unlinkErr : String → Bool

/-- The oracle under which no I/O operation fails. -/
def errFree : Oracle := ⟨fun _ _ => none, fun _ => false, fun _ => false⟩

/-- `fs.writeFile`. -/
def fsWriteFile (o : Oracle) (p : String) (d : α) (fs : FS α) :
    Except String Unit × FS α :=
  if o.writeErr p then (.error "EIO", fs) else (.ok (), fsSet fs p d)

/-- `fs.unlink` (throws `ENOENT` on a missing path, as node does). -/
def fsUnlink (o : Oracle) (p : String) (fs : FS α) : Except String Unit × FS α :=
  if o.unlinkErr p then (.error "EIO", fs)
  else if fsExists fs p then (.ok (), fsRemove fs p)
  else (.error "ENOENT", fs)

/-- `fs.rename`. -/
def fsRenameRaw (o : Oracle) (src dst : String) (fs : FS α) :
    Except String Unit × FS α :=
  match o.renameErr src dst with
  | some code => (.error code, fs)
  | none =>
    match fsLookup fs src with
    | none => (.error "ENOENT", fs)
    | some d => (.ok (), fsSet (fsRemove fs src) dst d)

/-- `safeRename` (SessionRollback.ts:495-507 and SessionRecovery.ts:194-206):
`fs.rename` with copy+unlink fallback when the error code is `EXDEV`. -/
def safeRename (o : Oracle) (src dst : String) (fs : FS α) :
    Except String Unit × FS α :=
  match fsRenameRaw o src dst fs with
  | (.ok _, fs') => (.ok (), fs')
  | (.error code, fs') =>
    if code = "EXDEV" then
      match fsLookup fs' src with
      | none => (.error "ENOENT", fs')
      | some d => fsUnlink o src (fsSet fs' dst d)
    else (.error code, fs')

/-! ## `FilesystemBlobStore` (src/storage/BlobStore.fs.ts) -/

/-- `BlobStoreErrorCode`. -/
inductive BlobErrCode
  | HASH_MISMATCH
  | BLOB_NOT_FOUND
  | STORAGE_FULL
  | COMPRESSION_FAILED
  | DECOMPRESSION_FAILED
  | IO_ERROR
deriving DecidableEq, Repr

/-- The `Result<T, BlobStoreError>` type of the storage layer. -/
inductive BRes (α : Type)
  | ok (value : α)
  | err (code : BlobErrCode) (message : String)
deriving DecidableEq, Repr

/-- The source's LZ4 placeholder: compression is a no-op. -/
def LZ4compress (buf : Bytes) : Bytes := buf

/-- The source's LZ4 placeholder: decompression is a no-op. -/
def LZ4decompress (buf : Bytes) : Bytes := buf

/-- `getShardPath`: `<base>/<algo>/<aa>/<bb>` from the first two hex pairs. -/
def getShardPath (basePath : String) (hash : String) (algo : String) : String :=
  basePath ++ "/" ++ algo ++ "/" ++ hash.take 2 ++ "/" ++ ((hash.drop 2).take 2)

/-- `getFilePath`: `<shard>/<hash>.lz4`. -/
def getFilePath (basePath : String) (hash : String) (algo : String) : String :=
  getShardPath basePath hash algo ++ "/" ++ hash ++ ".lz4"

/-- `FilesystemBlobStore.put` acting on the store's file tree. -/
def blobPut (o : Oracle) (basePath : String) (initialized : Bool) (buf : Bytes)
    (fs : FS Bytes) : BRes String × FS Bytes :=
  if !initialized then (.err .IO_ERROR "BlobStore not initialized", fs)
  else
    let hash := sha256Hex buf
    let filePath := getFilePath basePath hash "sha256"
    if fsExists fs filePath then (.ok hash, fs)
    else
      let compressed := LZ4compress buf
      match fsWriteFile o filePath compressed fs with
      | (.ok _, fs') => (.ok hash, fs')
      | (.error e, fs') => (.err .IO_ERROR ("Failed to store blob: " ++ e), fs')

/-- `FilesystemBlobStore.get` (reads never consult the oracle: a present
path reads back its stored content). -/
def blobGet (basePath : String) (initialized : Bool) (hash : String)
    (fs : FS Bytes) : BRes (Option Bytes) :=
  if !initialized then .err .IO_ERROR "BlobStore not initialized"
  else
    let filePath := getFilePath basePath hash "sha256"
    match fsLookup fs filePath with
    | none => .ok none
    | some compressed =>
      let decompressed := LZ4decompress compressed
      let computedHash := sha256Hex decompressed
      if computedHash = hash then .ok (some decompressed)
      else .err .HASH_MISMATCH
        ("Hash verification failed: expected " ++ hash ++ ", got " ++ computedHash)

/-- Looking up the path just written. -/
theorem fsLookup_set_self (fs : FS α) (p : String) (d : α) :
    fsLookup (fsSet fs p d) p = some d := by
  simp [fsLookup, fsSet, List.find?]

/-! ## Theorems for C6 and C7 -/

/-- C6: round-trip identity.  Storing `b` with `put` and retrieving it with
`get` at the returned digest yields exactly `b` (through the no-op LZ4
codec, the sharded layout and the integrity recheck).  The store is assumed
initialized, writable at the target path, and honest at that path (the blob
file for `sha256(b)`, if it already exists, holds `b` — the
content-addressing invariant `put` maintains). -/
theorem blob_roundtrip (o : Oracle) (basePath : String) (b : Bytes) (fs : FS Bytes)
    (hw : o.writeErr (getFilePath basePath (sha256Hex b) "sha256") = false)
    (hprior : fsLookup fs (getFilePath basePath (sha256Hex b) "sha256") = none ∨
      fsLookup fs (getFilePath basePath (sha256Hex b) "sha256") = some b) :
    (blobPut o basePath true b fs).1 = .ok (sha256Hex b) ∧
    blobGet basePath true (sha256Hex b) (blobPut o basePath true b fs).2 = .ok (some b) := by
  unfold blobPut blobGet
  rcases hprior with h | h
  · simp [fsExists, h, fsWriteFile, hw, LZ4compress, LZ4decompress, fsLookup_set_self]
  · simp [fsExists, h, LZ4decompress]

/-- Witness for C6: a fresh store and the bytes of `"hello"`. -/
theorem blob_roundtrip_witness :
    (blobPut errFree "/blobs" true (strBytes "hello") []).1 = .ok (sha256Hex (strBytes "hello")) ∧
    blobGet "/blobs" true (sha256Hex (strBytes "hello"))
      (blobPut errFree "/blobs" true (strBytes "hello") []).2 = .ok (some (strBytes "hello")) :=
  blob_roundtrip errFree "/blobs" (strBytes "hello") [] rfl (.inl rfl)

/-- C7: `get` recomputes the SHA-256 of the (decompressed) stored bytes and
returns them only when it equals the requested digest; a mismatch yields a
`HASH_MISMATCH` error result, which is distinguishable from the not-found
outcome — a successful result carrying no bytes. -/
theorem blobGet_verifies (basePath hash : String) (fs : FS Bytes) :
    (fsLookup fs (getFilePath basePath hash "sha256") = none →
      blobGet basePath true hash fs = .ok none) ∧
    (∀ c, fsLookup fs (getFilePath basePath hash "sha256") = some c →
      (sha256Hex c = hash → blobGet basePath true hash fs = .ok (some c)) ∧
      (sha256Hex c ≠ hash →
        blobGet basePath true hash fs =
          .err .HASH_MISMATCH
            ("Hash verification failed: expected " ++ hash ++ ", got " ++ sha256Hex c) ∧
        blobGet basePath true hash fs ≠ .ok none)) := by
  refine ⟨fun h => by simp [blobGet, h], fun c hc => ⟨fun he => ?_, fun hne => ?_⟩⟩
  · simp [blobGet, hc, LZ4decompress, he]
  · simp [blobGet, hc, LZ4decompress, hne]

/-- Witness for C7: a store holding the blob of `"A"` under its true digest
and a poisoned entry under the digest `"deadbeef"`; `get` succeeds on the
first, reports `HASH_MISMATCH` (not not-found) on the second, and reports
not-found on an absent digest. -/
theorem blobGet_verifies_witness :
    blobGet "/blobs" true (sha256Hex (strBytes "A"))
        [(getFilePath "/blobs" (sha256Hex (strBytes "A")) "sha256", strBytes "A"),
         (getFilePath "/blobs" "deadbeef" "sha256", strBytes "B")] = .ok (some (strBytes "A")) ∧
    (blobGet "/blobs" true "deadbeef"
        [(getFilePath "/blobs" (sha256Hex (strBytes "A")) "sha256", strBytes "A"),
         (getFilePath "/blobs" "deadbeef" "sha256", strBytes "B")] =
      .err .HASH_MISMATCH
        ("Hash verification failed: expected " ++ "deadbeef" ++ ", got " ++
          sha256Hex (strBytes "B")) ∧
     blobGet "/blobs" true "deadbeef"
        [(getFilePath "/blobs" (sha256Hex (strBytes "A")) "sha256", strBytes "A"),
         (getFilePath "/blobs" "deadbeef" "sha256", strBytes "B")] ≠ .ok none) ∧
    blobGet "/blobs" true "ffff"
        [(getFilePath "/blobs" (sha256Hex (strBytes "A")) "sha256", strBytes "A"),
         (getFilePath "/blobs" "deadbeef" "sha256", strBytes "B")] = .ok none :=
  ⟨((blobGet_verifies _ _ _).2 (strBytes "A") (by decide)).1 rfl,
   ((blobGet_verifies _ _ _).2 (strBytes "B") (by decide)).2 (by decide),
   (blobGet_verifies _ _ _).1 (by decide)⟩

/-! ## `SessionRollback` (src/session/SessionRollback.ts)

The workspace filesystem holds raw file bytes and serialized journals.
`utimes`/`chmod` restoration acts on metadata the filesystem model does not
carry and is modelled as a no-op; `mkdir` is a no-op (directories are
implicit).  The blob store is the abstract `BlobStore.get` the engine is
constructed with, modelled as a function from a digest to a result. -/

/-- Journal status. -/
inductive JStatus
  | pending
  | committed
  | rolledBack
deriving DecidableEq, Repr

/-- `JournalEntry` (SessionRollback.ts:60-67); `backups` holds
`(original, backup)` absolute-path pairs. -/
structure JournalEntry where
  sessionId : String
  timestamp : Nat
  workspaceRoot : String
  changes : List SessionChange
  backups : List (String × String)
  status : JStatus
deriving DecidableEq, Repr

/-- Workspace file data: raw bytes or a serialized journal. -/
inductive FData
  | raw (b : Bytes)
  | journalData (j : JournalEntry)
deriving DecidableEq, Repr

/-- `RollbackOptions` (the `onProgress` callback carries no semantics). -/
structure RollbackOptions where
  dryRun : Bool := false
  skipVerification : Bool := false
deriving DecidableEq, Repr

/-- `RollbackResult`. -/
structure RollbackResult where
  success : Bool
  filesReverted : List String
  filesSkipped : List String
  errors : List (String × String)
  journalPath : Option String := none
deriving DecidableEq, Repr

/-- The manifest fields `rollback` reads. -/
structure Manifest where
  sessionId : String
  filesChanged : List SessionChange
deriving DecidableEq, Repr

/-- `<journalDir>/pending/<sessionId>.json`. -/
def pendingJournalPath (journalDir sid : String) : String :=
  journalDir ++ "/pending/" ++ sid ++ ".json"

/-- `<journalDir>/committed/<sessionId>.json`. -/
def committedJournalPath (journalDir sid : String) : String :=
  journalDir ++ "/committed/" ++ sid ++ ".json"

/-- `<workspaceRoot>/.snapback-rollback-<sessionId>`. -/
def stagingDirOf (root sid : String) : String := root ++ "/.snapback-rollback-" ++ sid

/-- Whether `p` is the directory `dir` or lies below it. -/
def underDir (dir p : String) : Bool :=
  p == dir || ((dir ++ "/").data.isPrefixOf p.data)

/-- `cleanupStaging`: `fs.rm(stagingDir, {recursive: true, force: true})`,
errors ignored. -/
def cleanupStaging (stagingDir : String) (fs : FS FData) : FS FData :=
  fs.filter (fun e => !(underDir stagingDir e.1))

/-- JS `Map.set`: overwrite in place, else append (insertion order kept). -/
def mapSet (m : List (String × β)) (k : String) (v : β) : List (String × β) :=
  if m.any (fun e => e.1 == k) then m.map (fun e => if e.1 == k then (k, v) else e)
  else m ++ [(k, v)]

/-- JS `Set.add`: append if absent. -/
def setInsert (s : List String) (x : String) : List String :=
  if s.contains x then s else s ++ [x]

/-- Accumulator of the staging loop: the `stagedFiles` map
(`p ↦ (hash, content)`), the `filesToDelete` set, the per-change skips and
errors pushed into the result, and the filesystem. -/
structure StageSt where
  staged : List (String × String × Bytes)
  toDelete : List String
  skipped : List String
  errors : List (String × String)
  fs : FS FData
deriving DecidableEq, Repr

/-- `stageChange` (SessionRollback.ts:296-347): mark inverse deletions,
otherwise fetch the blob at the inverse's `hNew` and write it into staging.
`Except.error` is the exception the per-change `catch` in `rollback`
receives; our fallible writes leave the filesystem unchanged when they
throw, so the caller keeps its filesystem on error. -/
def stageChange (o : Oracle) (bget : String → BRes (Option Bytes)) (stagingDir : String)
    (change : SessionChange) (st : StageSt) : Except String StageSt :=
  if change.op = .deleted then
    .ok { st with toDelete := setInsert st.toDelete change.p }
  else
    match change.hNew with
    | none => .error ("Missing hash for " ++ opName change.op ++ " operation on " ++ change.p)
    | some hash =>
      match bget hash with
      | .err _ msg => .error ("Failed to retrieve blob " ++ hash ++ ": " ++ msg)
      | .ok none => .error ("Blob not found: " ++ hash)
      | .ok (some content) =>
        let stagingPath := stagingDir ++ "/" ++ change.p
        match fsWriteFile o stagingPath (.raw content) st.fs with
        | (.error e, _) => .error e
        | (.ok _, fs') =>
          .ok { st with staged := mapSet st.staged change.p (hash, content), fs := fs' }

/-- The staging loop of `rollback` (SessionRollback.ts:132-145): each
failing `stageChange` pushes the path into `filesSkipped`/`errors` and the
loop continues. -/
def stageLoop (o : Oracle) (bget : String → BRes (Option Bytes)) (stagingDir : String) :
    List SessionChange → StageSt → StageSt
  | [], st => st
  | change :: rest, st =>
    match stageChange o bget stagingDir change st with
    | .ok st' => stageLoop o bget stagingDir rest st'
    | .error e =>
      stageLoop o bget stagingDir rest
        { st with skipped := st.skipped ++ [change.p], errors := st.errors ++ [(change.p, e)] }

/-- `validateStaging` (SessionRollback.ts:352-368): recompute SHA-256 over
every staged blob and collect the mismatches. -/
def validateStaging (staged : List (String × String × Bytes)) : List (String × String) :=
  staged.foldl
    (fun errs e =>
      let computedHash := sha256Hex e.2.2
      if computedHash ≠ e.2.1 then
        errs ++ [(e.1, "Hash mismatch: expected " ++ e.2.1 ++ ", got " ++ computedHash)]
      else errs)
    []

/-- The mutable state threaded through `atomicSwap`: `journal.backups`, the
three accounting lists and the filesystem. -/
structure SwapSt where
  backups : List (String × String)
  reverted : List String
  skipped : List String
  errors : List (String × String)
  fs : FS FData
deriving DecidableEq, Repr

/-- The per-file `catch` of the swap loops (SessionRollback.ts:413-424 and
445-456): record the skip, then try to restore the backup; a failure of the
restore itself escapes to the outer catch of `atomicSwap`. -/
def catchSkip (o : Oracle) (relPath absPath backupPath e : String) (st : SwapSt) :
    Except (String × SwapSt) SwapSt :=
  let st' := { st with skipped := st.skipped ++ [relPath], errors := st.errors ++ [(relPath, e)] }
  if fsExists st'.fs backupPath then
    match safeRename o backupPath absPath st'.fs with
    | (.ok _, fs') => .ok { st' with fs := fs' }
    | (.error e2, fs') => .error (e2, { st' with fs := fs' })
  else .ok st'

/-- The staged-files swap loop (SessionRollback.ts:394-425): back up the
live file if present, then move the staged file into place. -/
def swapStagedGo (o : Oracle) (root sid : String) :
    List (String × String × Bytes) → SwapSt → Except (String × SwapSt) SwapSt
  | [], st => .ok st
  | (relPath, _) :: rest, st =>
    let absPath := root ++ "/" ++ relPath
    let stagingPath := root ++ "/.snapback-rollback-" ++ sid ++ "/" ++ relPath
    let backupPath := absPath ++ ".bak-" ++ sid
    let afterBackup : Except (String × SwapSt) SwapSt :=
      if fsExists st.fs absPath then
        match safeRename o absPath backupPath st.fs with
        | (.ok _, fs') =>
          .ok { st with fs := fs', backups := st.backups ++ [(absPath, backupPath)] }
        | (.error e, fs') => .error (e, { st with fs := fs' })
      else .ok st
    match afterBackup with
    | .error (e, st₁) =>
      match catchSkip o relPath absPath backupPath e st₁ with
      | .ok st₂ => swapStagedGo o root sid rest st₂
      | .error f => .error f
    | .ok st₁ =>
      match safeRename o stagingPath absPath st₁.fs with
      | (.ok _, fs₂) =>
        swapStagedGo o root sid rest { st₁ with fs := fs₂, reverted := st₁.reverted ++ [relPath] }
      | (.error e, fs₂) =>
        match catchSkip o relPath absPath backupPath e { st₁ with fs := fs₂ } with
        | .ok st₂ => swapStagedGo o root sid rest st₂
        | .error f => .error f

/-- The deletion loop (SessionRollback.ts:428-457): renaming the live file
to its backup is the deletion; a missing live file is only a skip. -/
def swapDeletesGo (o : Oracle) (root sid : String) :
    List String → SwapSt → Except (String × SwapSt) SwapSt
  | [], st => .ok st
  | relPath :: rest, st =>
    let absPath := root ++ "/" ++ relPath
    let backupPath := absPath ++ ".bak-" ++ sid
    if fsExists st.fs absPath then
      match safeRename o absPath backupPath st.fs with
      | (.ok _, fs') =>
        swapDeletesGo o root sid rest
          { st with
            fs := fs'
            backups := st.backups ++ [(absPath, backupPath)]
            reverted := st.reverted ++ [relPath] }
      | (.error e, fs') =>
        match catchSkip o relPath absPath backupPath e { st with fs := fs' } with
        | .ok st₂ => swapDeletesGo o root sid rest st₂
        | .error f => .error f
    else swapDeletesGo o root sid rest { st with skipped := st.skipped ++ [relPath] }

/-- Restore every recorded backup, ignoring errors (the outer catch of
`atomicSwap`, SessionRollback.ts:466-475). -/
def restoreAll (o : Oracle) : List (String × String) → FS FData → FS FData
  | [], fs => fs
  | (orig, b) :: rest, fs =>
    if fsExists fs b then
      match safeRename o b orig fs with
      | (_, fs') => restoreAll o rest fs'
    else restoreAll o rest fs

/-- The value `atomicSwap` resolves with. -/
structure SwapOut where
  success : Bool
  reverted : List String
  skipped : List String
  errors : List (String × String)
deriving DecidableEq, Repr

/-- `atomicSwap` (SessionRollback.ts:373-490): run both loops; on a fatal
error restore all backups and prepend a `<session>` error; `success` is
`errors.length === 0`. Also returns the journal's accumulated `backups`
and the filesystem. -/
def atomicSwap (o : Oracle) (root sid : String) (staged : List (String × String × Bytes))
    (toDelete : List String) (backups₀ : List (String × String)) (fs : FS FData) :
    SwapOut × List (String × String) × FS FData :=
  let st₀ : SwapSt := { backups := backups₀, reverted := [], skipped := [], errors := [], fs := fs }
  let fatal : String → SwapSt → SwapOut × List (String × String) × FS FData := fun e st =>
    let fs' := restoreAll o st.backups st.fs
    ({ success := false
       reverted := st.reverted
       skipped := st.skipped
       errors := ("<session>", "Fatal error during swap: " ++ e) :: st.errors },
     st.backups, fs')
  match swapStagedGo o root sid staged st₀ with
  | .error (e, st) => fatal e st
  | .ok st₁ =>
    match swapDeletesGo o root sid toDelete st₁ with
    | .error (e, st) => fatal e st
    | .ok st =>
      ({ success := st.errors.isEmpty, reverted := st.reverted, skipped := st.skipped,
         errors := st.errors }, st.backups, st.fs)

/-- The backup-unlink loop of the commit phase (SessionRollback.ts:204-208). -/
def unlinkBackups (o : Oracle) : List (String × String) → FS FData →
    Except (String × FS FData) (FS FData)
  | [], fs => .ok fs
  | (_, b) :: rest, fs =>
    if fsExists fs b then
      match fsUnlink o b fs with
      | (.ok _, fs') => unlinkBackups o rest fs'
      | (.error e, fs') => .error (e, fs')
    else unlinkBackups o rest fs

/-- The body of `rollback` inside its `try` (SessionRollback.ts:96-226).
`Except.error` carries the thrown message together with the result object
and filesystem as they stood at the throw point. -/
def rollbackBody (o : Oracle) (bget : String → BRes (Option Bytes))
    (workspaceRoot journalDir : String) (manifest : Manifest) (options : RollbackOptions)
    (now : Nat) (fs : FS FData) :
    Except (String × RollbackResult × FS FData) (RollbackResult × FS FData) :=
  let journalPath := pendingJournalPath journalDir manifest.sessionId
  let journal : JournalEntry :=
    { sessionId := manifest.sessionId, timestamp := now, workspaceRoot := workspaceRoot,
      changes := manifest.filesChanged, backups := [], status := .pending }
  let r0 : RollbackResult :=
    { success := false, filesReverted := [], filesSkipped := [], errors := [] }
  match fsWriteFile o journalPath (.journalData journal) fs with
  | (.error e, fs₁) => .error (e, r0, fs₁)
  | (.ok _, fs₁) =>
    let r1 := { r0 with journalPath := some journalPath }
    let stagingDir := stagingDirOf workspaceRoot manifest.sessionId
    let st := stageLoop o bget stagingDir (reverseChanges manifest.filesChanged)
      { staged := [], toDelete := [], skipped := [], errors := [], fs := fs₁ }
    let r2 := { r1 with filesSkipped := st.skipped, errors := st.errors }
    let verrs := if options.skipVerification then [] else validateStaging st.staged
    if verrs ≠ [] then
      let r3 := { r2 with
                  errors := r2.errors ++ verrs
                  filesSkipped := r2.filesSkipped ++ verrs.map (·.1) }
      let fs₂ := cleanupStaging stagingDir st.fs
      match fsWriteFile o journalPath (.journalData { journal with status := .rolledBack }) fs₂ with
      | (.error e, fs₃) => .error (e, r3, fs₃)
      | (.ok _, fs₃) => .ok (r3, fs₃)
    else if options.dryRun then
      let r4 := { r2 with success := true, filesReverted := st.staged.map (·.1) }
      let fs₂ := cleanupStaging stagingDir st.fs
      match fsUnlink o journalPath fs₂ with
      | (.error e, fs₃) => .error (e, r4, fs₃)
      | (.ok _, fs₃) => .ok (r4, fs₃)
    else
      match atomicSwap o workspaceRoot manifest.sessionId st.staged st.toDelete [] st.fs with
      | (swapOut, backups, fs₂) =>
        let r5 := { r2 with
                    filesReverted := swapOut.reverted
                    filesSkipped := r2.filesSkipped ++ swapOut.skipped
                    errors := r2.errors ++ swapOut.errors
                    success := swapOut.success }
        if swapOut.success then
          match fsWriteFile o (committedJournalPath journalDir manifest.sessionId)
              (.journalData { journal with backups := backups, status := .committed }) fs₂ with
          | (.error e, fs₃) => .error (e, r5, fs₃)
          | (.ok _, fs₃) =>
            match fsUnlink o journalPath fs₃ with
            | (.error e, fs₄) => .error (e, r5, fs₄)
            | (.ok _, fs₄) =>
              match unlinkBackups o backups fs₄ with
              | .error (e, fs₅) => .error (e, r5, fs₅)
              | .ok fs₅ => .ok (r5, cleanupStaging stagingDir fs₅)
        else
          match fsWriteFile o journalPath
              (.journalData { journal with backups := backups, status := .pending }) fs₂ with
          | (.error e, fs₃) => .error (e, r5, fs₃)
          | (.ok _, fs₃) => .ok (r5, cleanupStaging stagingDir fs₃)

/-- `rollback`: the body inside a catch-all that appends the thrown message
under path `"<session>"` and returns the result as it stood. -/
def rollback (o : Oracle) (bget : String → BRes (Option Bytes))
    (workspaceRoot journalDir : String) (manifest : Manifest) (options : RollbackOptions)
    (now : Nat) (fs : FS FData) : RollbackResult × FS FData :=
  match rollbackBody o bget workspaceRoot journalDir manifest options now fs with
  | .ok x => x
  | .error (e, r, fs') =>
    ({ r with errors := r.errors ++ [("<session>", "Rollback failed: " ++ e)] }, fs')

/-! ## `SessionRecovery` (src/session/SessionRecovery.ts) -/

/-- The per-journal recovery result (`status` strings as in the source). -/
structure RecoveryResult where
  sessionId : String
  status : String
  filesRestored : Nat
  error : Option String := none
deriving DecidableEq, Repr

/-- `checkBackupsExist` (SessionRecovery.ts:152-159): whether any referenced
backup file exists. -/
def checkBackupsExist (backups : List (String × String)) (fs : FS FData) : Bool :=
  backups.any (fun b => fsExists fs b.2)

/-- `rollbackFromBackups` (SessionRecovery.ts:164-189): for each
`(original, backup)` pair whose backup exists, rename it back (EXDEV-safe),
count it, and unlink any residual backup; per-pair errors are logged and
skipped. -/
def rollbackFromBackups (o : Oracle) : List (String × String) → FS FData → Nat × FS FData
  | [], fs => (0, fs)
  | (original, b) :: rest, fs =>
    if fsExists fs b = false then rollbackFromBackups o rest fs
    else
      match safeRename o b original fs with
      | (.error _, fs') => rollbackFromBackups o rest fs'
      | (.ok _, fs') =>
        if fsExists fs' b then
          match fsUnlink o b fs' with
          | (_, fs'') =>
            let r := rollbackFromBackups o rest fs''
            (r.1 + 1, r.2)
        else
          let r := rollbackFromBackups o rest fs'
          (r.1 + 1, r.2)

/-- `recoverJournal` (SessionRecovery.ts:106-147): delete the journal when
no referenced backup exists; otherwise restore from backups and then delete
the journal.  A thrown error yields `status = "failed"` with the journal
kept. -/
def recoverJournal (o : Oracle) (journal : JournalEntry) (journalPath : String)
    (fs : FS FData) : RecoveryResult × FS FData :=
  if checkBackupsExist journal.backups fs then
    let r := rollbackFromBackups o journal.backups fs
    match fsUnlink o journalPath r.2 with
    | (.ok _, fs₂) =>
      ({ sessionId := journal.sessionId, status := "recovered", filesRestored := r.1 }, fs₂)
    | (.error e, fs₂) =>
      ({ sessionId := journal.sessionId, status := "failed", filesRestored := r.1,
         error := some e }, fs₂)
  else
    match fsUnlink o journalPath fs with
    | (.ok _, fs') =>
      ({ sessionId := journal.sessionId, status := "cleaned", filesRestored := 0 }, fs')
    | (.error e, fs') =>
      ({ sessionId := journal.sessionId, status := "failed", filesRestored := 0,
         error := some e }, fs')

/-! ## `SessionManager` path handling, tracking and deferred hashing
(src/unnamed/part_002)

Modelled for the POSIX platform (`path.sep = "/"`, so the separator
conversion in `normalizePath` is the identity); workspace root and tracked
paths are absolute and already normal (no `.` segments), which is the
regime in which node's `path.relative` equals the segment-wise model
below. -/

/-- Split a character list at `/` (the splitter of `"...".split("/")`). -/
def splitSlash : List Char → List (List Char)
  | [] => [[]]
  | c :: rest =>
    let r := splitSlash rest
    if c = '/' then [] :: r
    else
      match r with
      | h :: t => (c :: h) :: t
      | [] => [[c]]

/-- Path segments (empty segments dropped). -/
def splitSegs (s : String) : List String :=
  ((splitSlash s.data).map (fun l => (⟨l⟩ : String))).filter (fun seg => seg ≠ "")

/-- Length of the common segment prefix. -/
def commonPrefixLen : List String → List String → Nat
  | a :: as, b :: bs => if a = b then commonPrefixLen as bs + 1 else 0
  | _, _ => 0

/-- node `path.relative` (POSIX, normal absolute inputs): `..` for each
remaining `from` segment, then the remaining `to` segments. -/
def pathRelative (fromP toP : String) : String :=
  let f := splitSegs fromP
  let t := splitSegs toP
  let c := commonPrefixLen f t
  String.intercalate "/" (List.replicate (f.length - c) ".." ++ t.drop c)

/-- `SessionManager.normalizePath`: `path.relative(workspaceRoot, abs)`
followed by separator conversion (identity on POSIX). -/
def normalizePath (workspaceRoot absolutePath : String) : String :=
  pathRelative workspaceRoot absolutePath

/-- The `meta` argument of `track`. -/
structure TrackMeta where
  fromPath : Option String := none
  oldUri : Option String := none
  size : Option Nat := none
  mtime : Option Nat := none
  mode : Option Nat := none
deriving DecidableEq, Repr

/-- `SessionManager.track` acting on the active session's change buffer
(the session is active; analytics, timers and flush scheduling carry no
buffer semantics).  Normalizes the path, consults the ignore predicate
(`shouldIgnore`, abstracted over the configured patterns), and appends a
`SessionChange` with digests left empty. -/
def track (ignore : String → Bool) (workspaceRoot : String) (buffer : List SessionChange)
    (absolutePath : String) (op : ChangeOp) (meta : TrackMeta) : List SessionChange :=
  let relPath := normalizePath workspaceRoot absolutePath
  if ignore relPath then buffer
  else
    let fromPath :=
      if op = .renamed then
        match meta.fromPath with
        | some fp => some (normalizePath workspaceRoot fp)
        | none =>
          match meta.oldUri with
          | some u => some (normalizePath workspaceRoot (u.replace "file://" ""))
          | none => none
      else none
    buffer ++ [{ p := relPath, op := op, fromPath := fromPath, sizeAfter := meta.size,
                 mtimeAfter := meta.mtime, modeAfter := meta.mode }]

/-- `SessionManager.computeDeferredHashes` (part_002:576-597): for each
non-deleted change, read the file and `put` it, storing the returned digest
in `hNew`; read failures are caught and skipped.  `hOld` is never written
(the body carries a `TODO: Compute hOld for modified/deleted files`).  The
blob store's `put` is abstracted as the digest function it returns. -/
def computeDeferredHashes (bput : Bytes → BRes String) (workspaceRoot : String)
    (changes : List SessionChange) (fs : FS FData) : List SessionChange :=
  changes.map (fun change =>
    if change.op ≠ .deleted then
      match fsLookup fs (workspaceRoot ++ "/" ++ change.p) with
      | some (.raw content) =>
        match bput content with
        | .ok value => { change with hNew := some value }
        | .err _ _ => change
      | _ => change
    else change)

/-- A `..` path segment is present (the check the spec's P8 and the repo's
`validatePath` in src/utils/security.ts prescribe). -/
def hasDotDotSegment (p : String) : Bool :=
  ((splitSlash p.data).map (fun l => (⟨l⟩ : String))).any (fun seg => seg == "..")

/-! ## Basic filesystem lemmas -/

theorem fsLookup_cons_self (t : FS α) (k : String) (v : α) :
    fsLookup ((k, v) :: t) k = some v := by
  simp [fsLookup, List.find?_cons_of_pos]

theorem fsLookup_cons_ne (t : FS α) (k p : String) (v : α) (h : ¬ k = p) :
    fsLookup ((k, v) :: t) p = fsLookup t p := by
  simp only [fsLookup]
  rw [List.find?_cons_of_neg]
  simp [h]

theorem fsLookup_remove (fs : FS α) (a p : String) :
    fsLookup (fsRemove fs a) p = if p = a then none else fsLookup fs p := by
  induction fs with
  | nil => by_cases hpa : p = a <;> simp [fsRemove, fsLookup, hpa]
  | cons e t ih =>
    obtain ⟨k, v⟩ := e
    by_cases hka : k = a
    · have hdrop : fsRemove ((k, v) :: t) a = fsRemove t a := by
        simp [fsRemove, List.filter_cons, bne, hka]
      rw [hdrop, ih]
      by_cases hpa : p = a
      · simp [hpa]
      · have hkp : ¬ k = p := by rw [hka]; exact fun h => hpa h.symm
        simp [hpa, fsLookup_cons_ne _ _ _ _ hkp]
    · have hkeep : fsRemove ((k, v) :: t) a = (k, v) :: fsRemove t a := by
        simp [fsRemove, List.filter_cons, bne, hka]
      rw [hkeep]
      by_cases hkp : k = p
      · have hpa : ¬ p = a := by rw [← hkp]; exact hka
        subst hkp
        simp [hpa, fsLookup_cons_self]
      · rw [fsLookup_cons_ne _ _ _ _ hkp, fsLookup_cons_ne _ _ _ _ hkp, ih]

theorem fsLookup_set (fs : FS α) (a p : String) (d : α) :
    fsLookup (fsSet fs a d) p = if p = a then some d else fsLookup fs p := by
  by_cases hpa : p = a
  · subst hpa; simp [fsSet, fsLookup_cons_self]
  · have hap : ¬ a = p := fun h => hpa h.symm
    rw [fsSet, fsLookup_cons_ne _ _ _ _ hap, fsLookup_remove]
    simp [hpa]

theorem fsExists_set (fs : FS α) (a p : String) (d : α) :
    fsExists (fsSet fs a d) p = if p = a then true else fsExists fs p := by
  by_cases hpa : p = a <;> simp [fsExists, fsLookup_set, hpa]

theorem fsExists_remove (fs : FS α) (a p : String) :
    fsExists (fsRemove fs a) p = if p = a then false else fsExists fs p := by
  by_cases hpa : p = a <;> simp [fsExists, fsLookup_remove, hpa]

/-- A successful plain rename: the source exists and the oracle is silent. -/
theorem safeRename_ok (o : Oracle) (src dst : String) (fs : FS α) (d : α)
    (h : o.renameErr src dst = none) (hd : fsLookup fs src = some d) :
    safeRename o src dst fs = (.ok (), fsSet (fsRemove fs src) dst d) := by
  simp [safeRename, fsRenameRaw, h, hd]

/-- A rename the oracle fails with a non-EXDEV code leaves the filesystem
unchanged and propagates the code. -/
theorem safeRename_err (o : Oracle) (src dst : String) (fs : FS α) (code : String)
    (h : o.renameErr src dst = some code) (hx : code ≠ "EXDEV") :
    safeRename o src dst fs = (.error code, fs) := by
  simp [safeRename, fsRenameRaw, h, hx]

theorem fsLookup_set_ne (fs : FS α) (a p : String) (d : α) (h : p ≠ a) :
    fsLookup (fsSet fs a d) p = fsLookup fs p := by
  simp [fsLookup_set, h]

theorem fsLookup_remove_ne (fs : FS α) (a p : String) (h : p ≠ a) :
    fsLookup (fsRemove fs a) p = fsLookup fs p := by
  simp [fsLookup_remove, h]

theorem fsExists_set_ne (fs : FS α) (a p : String) (d : α) (h : p ≠ a) :
    fsExists (fsSet fs a d) p = fsExists fs p := by
  simp [fsExists_set, h]

theorem fsExists_remove_ne (fs : FS α) (a p : String) (h : p ≠ a) :
    fsExists (fsRemove fs a) p = fsExists fs p := by
  simp [fsExists_remove, h]

theorem fsExists_set_self (fs : FS α) (a : String) (d : α) :
    fsExists (fsSet fs a d) a = true := by
  simp [fsExists_set]

/-- Left cancellation for string concatenation. -/
theorem string_append_cancel {a b c : String} (h : a ++ b = a ++ c) : b = c := by
  have hd : (a ++ b).data = (a ++ c).data := by rw [h]
  rw [String.data_append, String.data_append] at hd
  have := List.append_cancel_left hd
  cases b with
  | mk lb =>
    cases c with
    | mk lc => simp only [String.data] at this; rw [this]

/-! ## Theorems for C5 -/

/-- Pointwise effect of `rollbackFromBackups` on the filesystem: every pair
whose backup exists has the backup moved over its original; pairs with no
backup, and unrelated paths, are untouched. -/
theorem rollbackFromBackups_spec (o : Oracle) (backups : List (String × String)) :
    ∀ (fs : FS FData),
    (∀ pr ∈ backups, o.renameErr pr.2 pr.1 = none) →
    (backups.map (·.1)).Nodup →
    (backups.map (·.2)).Nodup →
    (∀ pr ∈ backups, ∀ qr ∈ backups, pr.1 ≠ qr.2) →
    (∀ pr ∈ backups, fsExists fs pr.2 = true →
      fsLookup (rollbackFromBackups o backups fs).2 pr.1 = fsLookup fs pr.2 ∧
      fsLookup (rollbackFromBackups o backups fs).2 pr.2 = none) ∧
    (∀ pr ∈ backups, fsExists fs pr.2 = false →
      fsLookup (rollbackFromBackups o backups fs).2 pr.1 = fsLookup fs pr.1 ∧
      fsLookup (rollbackFromBackups o backups fs).2 pr.2 = fsLookup fs pr.2) ∧
    (∀ p, p ∉ backups.map (·.1) → p ∉ backups.map (·.2) →
      fsLookup (rollbackFromBackups o backups fs).2 p = fsLookup fs p) := by
  induction backups with
  | nil =>
    intro fs _ _ _ _
    exact ⟨fun pr hpr => absurd hpr (List.not_mem_nil pr),
      fun pr hpr => absurd hpr (List.not_mem_nil pr), fun p _ _ => rfl⟩
  | cons hd rest ih =>
    obtain ⟨orig, b⟩ := hd
    intro fs hre hnd1 hnd2 hdisj
    have hhd : (orig, b) ∈ (orig, b) :: rest := List.mem_cons_self _ _
    have hmemc : ∀ qr ∈ rest, qr ∈ (orig, b) :: rest := fun qr h => List.mem_cons_of_mem _ h
    have hob : orig ≠ b := hdisj _ hhd _ hhd
    have horig1 : orig ∉ rest.map (·.1) := (List.nodup_cons.mp hnd1).1
    have hb2 : b ∉ rest.map (·.2) := (List.nodup_cons.mp hnd2).1
    have hq1orig : ∀ qr ∈ rest, qr.1 ≠ orig := by
      intro qr hq he; exact horig1 (he ▸ List.mem_map_of_mem _ hq)
    have hq1b : ∀ qr ∈ rest, qr.1 ≠ b := fun qr hq => hdisj _ (hmemc _ hq) _ hhd
    have hq2orig : ∀ qr ∈ rest, qr.2 ≠ orig := by
      intro qr hq he; exact (hdisj _ hhd _ (hmemc _ hq)) he.symm
    have hq2b : ∀ qr ∈ rest, qr.2 ≠ b := by
      intro qr hq he; exact hb2 (he ▸ List.mem_map_of_mem _ hq)
    have hborig1 : b ∉ rest.map (·.1) := by
      intro hmem
      obtain ⟨qr, hq, he⟩ := List.mem_map.mp hmem
      exact hq1b qr hq he
    have horig2 : orig ∉ rest.map (·.2) := by
      intro hmem
      obtain ⟨qr, hq, he⟩ := List.mem_map.mp hmem
      exact hq2orig qr hq he
    have ihweak := fun (f : FS FData) => ih f (fun qr hq => hre _ (hmemc _ hq))
      (List.nodup_cons.mp hnd1).2 (List.nodup_cons.mp hnd2).2
      (fun pr hp qr hq => hdisj _ (hmemc _ hp) _ (hmemc _ hq))
    by_cases hx : fsExists fs b = true
    · obtain ⟨db, hdb⟩ := Option.isSome_iff_exists.mp hx
      have hsr := safeRename_ok o b orig fs db (hre _ hhd) hdb
      have hfs1b : fsExists (fsSet (fsRemove fs b) orig db) b = false := by
        rw [fsExists_set_ne _ _ _ _ (Ne.symm hob), fsExists_remove]
        simp
      have hrun2 : (rollbackFromBackups o ((orig, b) :: rest) fs).2 =
          (rollbackFromBackups o rest (fsSet (fsRemove fs b) orig db)).2 := by
        simp only [rollbackFromBackups]
        rw [if_neg (by simp [hx]), hsr]
        simp only [hfs1b, Bool.false_eq_true, if_false]
      obtain ⟨IH1, IH2, IHf⟩ := ihweak (fsSet (fsRemove fs b) orig db)
      have hfs1 : ∀ (x : String), x ≠ orig → x ≠ b →
          fsLookup (fsSet (fsRemove fs b) orig db) x = fsLookup fs x := by
        intro x h1 h2
        rw [fsLookup_set_ne _ _ _ _ h1, fsLookup_remove_ne _ _ _ h2]
      have hfs1ex : ∀ (x : String), x ≠ orig → x ≠ b →
          fsExists (fsSet (fsRemove fs b) orig db) x = fsExists fs x := by
        intro x h1 h2
        rw [fsExists_set_ne _ _ _ _ h1, fsExists_remove_ne _ _ _ h2]
      refine ⟨?_, ?_, ?_⟩
      · intro pr hpr hpe
        rw [hrun2]
        rcases List.mem_cons.mp hpr with heq | hmem
        · subst heq
          dsimp only
          exact ⟨by rw [IHf orig horig1 horig2, fsLookup_set_self, hdb],
            by
              rw [IHf b hborig1 hb2, fsLookup_set_ne _ _ _ _ (Ne.symm hob), fsLookup_remove]
              simp⟩
        · have hpe' : fsExists (fsSet (fsRemove fs b) orig db) pr.2 = true := by
            rw [hfs1ex pr.2 (hq2orig _ hmem) (hq2b _ hmem)]; exact hpe
          obtain ⟨h1, h2⟩ := IH1 pr hmem hpe'
          exact ⟨by rw [h1, hfs1 pr.2 (hq2orig _ hmem) (hq2b _ hmem)], h2⟩
      · intro pr hpr hpe
        rw [hrun2]
        rcases List.mem_cons.mp hpr with heq | hmem
        · subst heq
          exact absurd hpe (by simp [hx])
        · have hpe' : fsExists (fsSet (fsRemove fs b) orig db) pr.2 = false := by
            rw [hfs1ex pr.2 (hq2orig _ hmem) (hq2b _ hmem)]; exact hpe
          obtain ⟨h1, h2⟩ := IH2 pr hmem hpe'
          exact ⟨by rw [h1, hfs1 pr.1 (hq1orig _ hmem) (hq1b _ hmem)],
            by rw [h2, hfs1 pr.2 (hq2orig _ hmem) (hq2b _ hmem)]⟩
      · intro p h1 h2
        have hpo : p ≠ orig := fun he => h1 (by rw [he]; exact List.mem_cons_self _ _)
        have hpb : p ≠ b := fun he => h2 (by rw [he]; exact List.mem_cons_self _ _)
        have h1' : p ∉ rest.map (·.1) := fun hm => h1 (List.mem_cons_of_mem _ hm)
        have h2' : p ∉ rest.map (·.2) := fun hm => h2 (List.mem_cons_of_mem _ hm)
        rw [hrun2, IHf p h1' h2', hfs1 p hpo hpb]
    · have hx' : fsExists fs b = false := by simpa using hx
      have hrun2 : (rollbackFromBackups o ((orig, b) :: rest) fs).2 =
          (rollbackFromBackups o rest fs).2 := by
        simp only [rollbackFromBackups]
        rw [if_pos hx']
      obtain ⟨IH1, IH2, IHf⟩ := ihweak fs
      refine ⟨?_, ?_, ?_⟩
      · intro pr hpr hpe
        rw [hrun2]
        rcases List.mem_cons.mp hpr with heq | hmem
        · subst heq
          exact absurd hpe (by simp [hx'])
        · exact IH1 pr hmem hpe
      · intro pr hpr hpe
        rw [hrun2]
        rcases List.mem_cons.mp hpr with heq | hmem
        · subst heq
          exact ⟨IHf orig horig1 horig2, IHf b hborig1 hb2⟩
        · exact IH2 pr hmem hpe
      · intro p h1 h2
        have h1' : p ∉ rest.map (·.1) := fun hm => h1 (List.mem_cons_of_mem _ hm)
        have h2' : p ∉ rest.map (·.2) := fun hm => h2 (List.mem_cons_of_mem _ hm)
        rw [hrun2, IHf p h1' h2']

/-- C5: for every pending journal the recovery sweeper processes: if none of
the referenced backup files exists, the journal file is deleted and no other
file is touched; otherwise every `(original, backup)` pair whose backup
exists has the backup renamed back over the original (EXDEV-safe) with no
residual backup left, pairs without a backup are untouched, unrelated files
are untouched, and the journal file is deleted.  (Rename/unlink I/O is
assumed not to fail, and the journal's paths are assumed distinct in the
usual way: distinct originals, distinct backups, no original equal to a
backup, journal file disjoint from both.) -/
theorem recoverJournal_spec (o : Oracle) (journal : JournalEntry) (journalPath : String)
    (fs : FS FData)
    (hjex : fsExists fs journalPath = true)
    (hju : o.unlinkErr journalPath = false)
    (hre : ∀ pr ∈ journal.backups, o.renameErr pr.2 pr.1 = none)
    (hnd1 : (journal.backups.map (·.1)).Nodup)
    (hnd2 : (journal.backups.map (·.2)).Nodup)
    (hdisj : ∀ pr ∈ journal.backups, ∀ qr ∈ journal.backups, pr.1 ≠ qr.2)
    (hjp : ∀ pr ∈ journal.backups, pr.1 ≠ journalPath ∧ pr.2 ≠ journalPath) :
    (checkBackupsExist journal.backups fs = false →
      (recoverJournal o journal journalPath fs).1.status = "cleaned" ∧
      (recoverJournal o journal journalPath fs).1.filesRestored = 0 ∧
      fsLookup (recoverJournal o journal journalPath fs).2 journalPath = none ∧
      (∀ p, p ≠ journalPath →
        fsLookup (recoverJournal o journal journalPath fs).2 p = fsLookup fs p)) ∧
    (checkBackupsExist journal.backups fs = true →
      (recoverJournal o journal journalPath fs).1.status = "recovered" ∧
      fsLookup (recoverJournal o journal journalPath fs).2 journalPath = none ∧
      (∀ pr ∈ journal.backups, fsExists fs pr.2 = true →
        fsLookup (recoverJournal o journal journalPath fs).2 pr.1 = fsLookup fs pr.2 ∧
        fsLookup (recoverJournal o journal journalPath fs).2 pr.2 = none) ∧
      (∀ pr ∈ journal.backups, fsExists fs pr.2 = false →
        fsLookup (recoverJournal o journal journalPath fs).2 pr.1 = fsLookup fs pr.1 ∧
        fsLookup (recoverJournal o journal journalPath fs).2 pr.2 = fsLookup fs pr.2) ∧
      (∀ p, p ≠ journalPath → p ∉ journal.backups.map (·.1) →
        p ∉ journal.backups.map (·.2) →
        fsLookup (recoverJournal o journal journalPath fs).2 p = fsLookup fs p)) := by
  constructor
  · intro hnb
    have hrj : recoverJournal o journal journalPath fs =
        ({ sessionId := journal.sessionId, status := "cleaned", filesRestored := 0 },
         fsRemove fs journalPath) := by
      simp only [recoverJournal, hnb, Bool.false_eq_true, if_false, fsUnlink, hju,
        Bool.false_eq_true, if_false, hjex, if_true]
    rw [hrj]
    refine ⟨rfl, rfl, ?_, ?_⟩
    · rw [fsLookup_remove]; simp
    · intro p hp
      exact fsLookup_remove_ne _ _ _ hp
  · intro hb
    obtain ⟨S1, S2, Sf⟩ := rollbackFromBackups_spec o journal.backups fs hre hnd1 hnd2 hdisj
    have hjp1 : journalPath ∉ journal.backups.map (·.1) := by
      intro hm
      obtain ⟨qr, hq, he⟩ := List.mem_map.mp hm
      exact (hjp qr hq).1 he
    have hjp2 : journalPath ∉ journal.backups.map (·.2) := by
      intro hm
      obtain ⟨qr, hq, he⟩ := List.mem_map.mp hm
      exact (hjp qr hq).2 he
    have hjex1 : fsExists (rollbackFromBackups o journal.backups fs).2 journalPath = true := by
      unfold fsExists
      rw [Sf journalPath hjp1 hjp2]
      exact hjex
    have hrj : recoverJournal o journal journalPath fs =
        ({ sessionId := journal.sessionId, status := "recovered",
           filesRestored := (rollbackFromBackups o journal.backups fs).1 },
         fsRemove (rollbackFromBackups o journal.backups fs).2 journalPath) := by
      simp only [recoverJournal, hb, if_true, fsUnlink, hju, Bool.false_eq_true, if_false,
        hjex1, if_true]
    rw [hrj]
    refine ⟨rfl, ?_, ?_, ?_, ?_⟩
    · rw [fsLookup_remove]; simp
    · intro pr hpr hpe
      obtain ⟨h1, h2⟩ := S1 pr hpr hpe
      exact ⟨by rw [fsLookup_remove_ne _ _ _ (hjp pr hpr).1, h1],
        by rw [fsLookup_remove_ne _ _ _ (hjp pr hpr).2, h2]⟩
    · intro pr hpr hpe
      obtain ⟨h1, h2⟩ := S2 pr hpr hpe
      exact ⟨by rw [fsLookup_remove_ne _ _ _ (hjp pr hpr).1, h1],
        by rw [fsLookup_remove_ne _ _ _ (hjp pr hpr).2, h2]⟩
    · intro p hp h1 h2
      rw [fsLookup_remove_ne _ _ _ hp, Sf p h1 h2]

/-- The journal of the concrete recovery scenario: `a`'s backup exists,
`c`'s does not. -/
def demoJournal : JournalEntry :=
  { sessionId := "s3"
    timestamp := 0
    workspaceRoot := "/w"
    changes := []
    backups := [("/w/a", "/w/a.bak-s3"), ("/w/c", "/w/c.bak-s3")]
    status := .pending }

/-- The pending journal path of that scenario. -/
def demoJournalPath : String := "/w/.sb_journal/pending/s3.json"

/-- The crashed workspace of that scenario. -/
def demoRecFS : FS FData :=
  [("/w/a.bak-s3", .raw [7]), ("/w/a", .raw [8]),
   ("/w/c", .raw [9]),
   ("/w/.sb_journal/pending/s3.json", .journalData demoJournal)]

/-- Witness for C5: recovering the concrete crashed workspace restores `a`
from its backup, leaves `c` alone, removes the backup and deletes the
journal. -/
theorem recoverJournal_spec_witness :
    (recoverJournal errFree demoJournal demoJournalPath demoRecFS).1.status = "recovered" ∧
    fsLookup (recoverJournal errFree demoJournal demoJournalPath demoRecFS).2
      demoJournalPath = none ∧
    fsLookup (recoverJournal errFree demoJournal demoJournalPath demoRecFS).2 "/w/a" =
      fsLookup demoRecFS "/w/a.bak-s3" ∧
    fsLookup (recoverJournal errFree demoJournal demoJournalPath demoRecFS).2
      "/w/a.bak-s3" = none ∧
    fsLookup (recoverJournal errFree demoJournal demoJournalPath demoRecFS).2 "/w/c" =
      fsLookup demoRecFS "/w/c" :=
  have T := recoverJournal_spec errFree demoJournal demoJournalPath demoRecFS (by decide)
    rfl (by decide) (by decide) (by decide) (by decide) (by decide)
  have T2 := T.2 (by decide)
  ⟨T2.1, T2.2.1,
   (T2.2.2.1 ("/w/a", "/w/a.bak-s3") (by decide) (by decide)).1,
   (T2.2.2.1 ("/w/a", "/w/a.bak-s3") (by decide) (by decide)).2,
   (T2.2.2.2.1 ("/w/c", "/w/c.bak-s3") (by decide) (by decide)).1⟩

/-! ## A concrete two-file modify session used by several scenarios -/

/-- A manifest with two modified files `a` and `b`. -/
def demoManifest : Manifest :=
  { sessionId := "s1"
    filesChanged :=
      [{ p := "a", op := .modified, hOld := some "hA", hNew := some "hA2" },
       { p := "b", op := .modified, hOld := some "hB", hNew := some "hB2" }] }

/-- A blob store holding the pre-session contents of `a` and `b`. -/
def demoBget : String → BRes (Option Bytes) := fun h =>
  if h = "hA" then .ok (some [10]) else if h = "hB" then .ok (some [11]) else .ok none

/-- The workspace before rollback: `a` and `b` hold their post-session bytes. -/
def demoFS : FS FData := [("/w/a", .raw [1]), ("/w/b", .raw [2])]

/-- An oracle that fails (plain I/O error) only the swap rename of `a`'s
staged file into the workspace. -/
def oracleFailSwapA : Oracle :=
  { renameErr := fun s d =>
      if s = "/w/.snapback-rollback-s1/a" ∧ d = "/w/a" then some "EIO" else none
    writeErr := fun _ => false
    unlinkErr := fun _ => false }

/-- An oracle that fails only the unlink of the pending journal file. -/
def oracleFailJournalUnlink : Oracle :=
  { renameErr := fun _ _ => none
    writeErr := fun _ => false
    unlinkErr := fun p => p = "/w/.sb_journal/pending/s1.json" }

/-! ## Theorems for C3 -/

/-- Counterexample for C3: in a rollback where the swap of `a` fails with a
per-file I/O error and `b` succeeds, the code returns `success = false`
(`success` is `errors.length === 0` in `atomicSwap`), not `success = true`
as the claim states; the failing path is in `filesSkipped` and the rollback
continued with `b`. -/
theorem rollback_perFile_failure_success_false :
    (rollback oracleFailSwapA demoBget "/w" "/w/.sb_journal" demoManifest
        { skipVerification := true } 99 demoFS).1.success = false ∧
    (rollback oracleFailSwapA demoBget "/w" "/w/.sb_journal" demoManifest
        { skipVerification := true } 99 demoFS).1.filesSkipped = ["a"] ∧
    (rollback oracleFailSwapA demoBget "/w" "/w/.sb_journal" demoManifest
        { skipVerification := true } 99 demoFS).1.filesReverted = ["b"] ∧
    (rollback oracleFailSwapA demoBget "/w" "/w/.sb_journal" demoManifest
        { skipVerification := true } 99 demoFS).1.errors = [("a", "EIO")] := by
  decide

/-! ### Single-iteration lemmas for the staged-files swap loop -/

/-- Successful swap of one file whose live version exists: back it up, move
the staged file into place. -/
theorem swapStep_ok_backup (o : Oracle) (root sid p₀ : String) (hc : String × Bytes)
    (rest : List (String × String × Bytes)) (st : SwapSt) (dA dS : FData)
    (hab : o.renameErr (root ++ "/" ++ p₀) (root ++ "/" ++ p₀ ++ ".bak-" ++ sid) = none)
    (hsa : o.renameErr (root ++ "/.snapback-rollback-" ++ sid ++ "/" ++ p₀) (root ++ "/" ++ p₀) = none)
    (hdA : fsLookup st.fs (root ++ "/" ++ p₀) = some dA)
    (hdS : fsLookup (fsSet (fsRemove st.fs (root ++ "/" ++ p₀)) (root ++ "/" ++ p₀ ++ ".bak-" ++ sid) dA)
        (root ++ "/.snapback-rollback-" ++ sid ++ "/" ++ p₀) = some dS) :
    swapStagedGo o root sid ((p₀, hc) :: rest) st =
      swapStagedGo o root sid rest
        { st with
          fs := fsSet (fsRemove (fsSet (fsRemove st.fs (root ++ "/" ++ p₀))
                  (root ++ "/" ++ p₀ ++ ".bak-" ++ sid) dA)
                (root ++ "/.snapback-rollback-" ++ sid ++ "/" ++ p₀)) (root ++ "/" ++ p₀) dS
          backups := st.backups ++ [(root ++ "/" ++ p₀, root ++ "/" ++ p₀ ++ ".bak-" ++ sid)]
          reverted := st.reverted ++ [p₀] } := by
  have hA : fsExists st.fs (root ++ "/" ++ p₀) = true := by simp [fsExists, hdA]
  simp only [swapStagedGo, hA, if_true,
    safeRename_ok o _ _ _ _ hab hdA, safeRename_ok o _ _ _ _ hsa hdS]

/-- Successful swap of one file with no live version: no backup, move the
staged file into place. -/
theorem swapStep_ok_nobackup (o : Oracle) (root sid p₀ : String) (hc : String × Bytes)
    (rest : List (String × String × Bytes)) (st : SwapSt) (dS : FData)
    (hsa : o.renameErr (root ++ "/.snapback-rollback-" ++ sid ++ "/" ++ p₀) (root ++ "/" ++ p₀) = none)
    (hA : fsExists st.fs (root ++ "/" ++ p₀) = false)
    (hdS : fsLookup st.fs (root ++ "/.snapback-rollback-" ++ sid ++ "/" ++ p₀) = some dS) :
    swapStagedGo o root sid ((p₀, hc) :: rest) st =
      swapStagedGo o root sid rest
        { st with
          fs := fsSet (fsRemove st.fs (root ++ "/.snapback-rollback-" ++ sid ++ "/" ++ p₀))
            (root ++ "/" ++ p₀) dS
          reverted := st.reverted ++ [p₀] } := by
  simp only [swapStagedGo, hA, Bool.false_eq_true, if_false,
    safeRename_ok o _ _ _ _ hsa hdS]

/-- Failing swap of one file whose live version exists: the backup rename
succeeds, the into-place rename throws a plain I/O error, and the catch
restores the backup. -/
theorem swapStep_fail_backup (o : Oracle) (root sid p₀ : String) (hc : String × Bytes)
    (rest : List (String × String × Bytes)) (st : SwapSt) (dA : FData)
    (hab : o.renameErr (root ++ "/" ++ p₀) (root ++ "/" ++ p₀ ++ ".bak-" ++ sid) = none)
    (hba : o.renameErr (root ++ "/" ++ p₀ ++ ".bak-" ++ sid) (root ++ "/" ++ p₀) = none)
    (hsa : o.renameErr (root ++ "/.snapback-rollback-" ++ sid ++ "/" ++ p₀) (root ++ "/" ++ p₀) = some "EIO")
    (hdA : fsLookup st.fs (root ++ "/" ++ p₀) = some dA) :
    swapStagedGo o root sid ((p₀, hc) :: rest) st =
      swapStagedGo o root sid rest
        { st with
          fs := fsSet (fsRemove (fsSet (fsRemove st.fs (root ++ "/" ++ p₀))
                  (root ++ "/" ++ p₀ ++ ".bak-" ++ sid) dA)
                (root ++ "/" ++ p₀ ++ ".bak-" ++ sid)) (root ++ "/" ++ p₀) dA
          backups := st.backups ++ [(root ++ "/" ++ p₀, root ++ "/" ++ p₀ ++ ".bak-" ++ sid)]
          skipped := st.skipped ++ [p₀]
          errors := st.errors ++ [(p₀, "EIO")] } := by
  have hA : fsExists st.fs (root ++ "/" ++ p₀) = true := by simp [fsExists, hdA]
  have hBex : fsExists (fsSet (fsRemove st.fs (root ++ "/" ++ p₀))
      (root ++ "/" ++ p₀ ++ ".bak-" ++ sid) dA) (root ++ "/" ++ p₀ ++ ".bak-" ++ sid) = true :=
    fsExists_set_self _ _ _
  have hBlook : fsLookup (fsSet (fsRemove st.fs (root ++ "/" ++ p₀))
      (root ++ "/" ++ p₀ ++ ".bak-" ++ sid) dA) (root ++ "/" ++ p₀ ++ ".bak-" ++ sid) = some dA :=
    fsLookup_set_self _ _ _
  simp only [swapStagedGo, hA, if_true, safeRename_ok o _ _ _ _ hab hdA,
    safeRename_err o _ _ _ _ hsa (by decide), catchSkip, hBex,
    safeRename_ok o _ _ _ _ hba hBlook]

/-- Failing swap of one file with no live version and no stray backup: only
the skip is recorded. -/
theorem swapStep_fail_nobackup (o : Oracle) (root sid p₀ : String) (hc : String × Bytes)
    (rest : List (String × String × Bytes)) (st : SwapSt)
    (hsa : o.renameErr (root ++ "/.snapback-rollback-" ++ sid ++ "/" ++ p₀) (root ++ "/" ++ p₀) = some "EIO")
    (hA : fsExists st.fs (root ++ "/" ++ p₀) = false)
    (hB : fsExists st.fs (root ++ "/" ++ p₀ ++ ".bak-" ++ sid) = false) :
    swapStagedGo o root sid ((p₀, hc) :: rest) st =
      swapStagedGo o root sid rest
        { st with skipped := st.skipped ++ [p₀], errors := st.errors ++ [(p₀, "EIO")] } := by
  simp only [swapStagedGo, hA, Bool.false_eq_true, if_false,
    safeRename_err o _ _ _ _ hsa (by decide), catchSkip, hB]

/-- Failing swap of one file with no live version but a stray backup file:
the catch renames the stray backup over the target. -/
theorem swapStep_fail_stray (o : Oracle) (root sid p₀ : String) (hc : String × Bytes)
    (rest : List (String × String × Bytes)) (st : SwapSt) (dB : FData)
    (hba : o.renameErr (root ++ "/" ++ p₀ ++ ".bak-" ++ sid) (root ++ "/" ++ p₀) = none)
    (hsa : o.renameErr (root ++ "/.snapback-rollback-" ++ sid ++ "/" ++ p₀) (root ++ "/" ++ p₀) = some "EIO")
    (hA : fsExists st.fs (root ++ "/" ++ p₀) = false)
    (hdB : fsLookup st.fs (root ++ "/" ++ p₀ ++ ".bak-" ++ sid) = some dB) :
    swapStagedGo o root sid ((p₀, hc) :: rest) st =
      swapStagedGo o root sid rest
        { st with
          fs := fsSet (fsRemove st.fs (root ++ "/" ++ p₀ ++ ".bak-" ++ sid)) (root ++ "/" ++ p₀) dB
          skipped := st.skipped ++ [p₀]
          errors := st.errors ++ [(p₀, "EIO")] } := by
  have hB : fsExists st.fs (root ++ "/" ++ p₀ ++ ".bak-" ++ sid) = true := by
    simp [fsExists, hdB]
  simp only [swapStagedGo, hA, Bool.false_eq_true, if_false,
    safeRename_err o _ _ _ _ hsa (by decide), catchSkip, hB,
    safeRename_ok o _ _ _ _ hba hdB]
  simp

/-- Accounting of the staged-files swap loop: when the oracle fails (with a
plain I/O error) exactly the into-place renames of the paths satisfying `F`
and every staged file is present in the staging directory, the loop never
escalates; every failing path is pushed to `skipped`/`errors` and every
other path to `reverted`, in order. -/
theorem swapStagedGo_accounting (o : Oracle) (root sid : String) (F : String → Bool)
    (staged : List (String × String × Bytes)) :
    ∀ (st : SwapSt),
    (∀ p ∈ staged.map (·.1),
      o.renameErr (root ++ "/" ++ p) (root ++ "/" ++ p ++ ".bak-" ++ sid) = none) →
    (∀ p ∈ staged.map (·.1),
      o.renameErr (root ++ "/" ++ p ++ ".bak-" ++ sid) (root ++ "/" ++ p) = none) →
    (∀ p ∈ staged.map (·.1),
      o.renameErr (root ++ "/.snapback-rollback-" ++ sid ++ "/" ++ p) (root ++ "/" ++ p) =
        (if F p then some "EIO" else none)) →
    (∀ p ∈ staged.map (·.1),
      fsExists st.fs (root ++ "/.snapback-rollback-" ++ sid ++ "/" ++ p) = true) →
    (∀ p ∈ staged.map (·.1), ∀ q ∈ staged.map (·.1),
      root ++ "/.snapback-rollback-" ++ sid ++ "/" ++ q ≠ root ++ "/" ++ p) →
    (∀ p ∈ staged.map (·.1), ∀ q ∈ staged.map (·.1),
      root ++ "/.snapback-rollback-" ++ sid ++ "/" ++ q ≠ root ++ "/" ++ p ++ ".bak-" ++ sid) →
    (staged.map (·.1)).Nodup →
    ∃ st', swapStagedGo o root sid staged st = .ok st' ∧
      st'.reverted = st.reverted ++ (staged.map (·.1)).filter (fun p => !F p) ∧
      st'.skipped = st.skipped ++ (staged.map (·.1)).filter F ∧
      st'.errors = st.errors ++ ((staged.map (·.1)).filter F).map (fun p => (p, "EIO")) := by
  induction staged with
  | nil =>
    intro st _ _ _ _ _ _ _
    exact ⟨st, rfl, by simp, by simp, by simp⟩
  | cons hd rest ih =>
    obtain ⟨p₀, hc₀⟩ := hd
    intro st hab hba hsa hex hd1 hd2 hnd
    have hp0 : p₀ ∈ ((p₀, hc₀) :: rest).map (·.1) := by simp
    have hmem : ∀ q ∈ rest.map (·.1), q ∈ ((p₀, hc₀) :: rest).map (·.1) := by
      intro q hq; exact List.mem_cons_of_mem _ hq
    have hnd' : (p₀ :: rest.map (·.1)).Nodup := hnd
    have hndc := List.nodup_cons.mp hnd'
    have hpnotin : p₀ ∉ rest.map (·.1) := hndc.1
    have hqS : ∀ q ∈ rest.map (·.1),
        root ++ "/.snapback-rollback-" ++ sid ++ "/" ++ q ≠
          root ++ "/.snapback-rollback-" ++ sid ++ "/" ++ p₀ := by
      intro q hq h
      exact hpnotin (string_append_cancel h ▸ hq)
    by_cases hF : F p₀ = true
    · -- the into-place rename of p₀ fails
      have hsaEIO : o.renameErr (root ++ "/.snapback-rollback-" ++ sid ++ "/" ++ p₀)
          (root ++ "/" ++ p₀) = some "EIO" := by rw [hsa p₀ hp0, if_pos hF]
      by_cases hA : fsExists st.fs (root ++ "/" ++ p₀) = true
      · obtain ⟨dA, hdA⟩ := Option.isSome_iff_exists.mp hA
        rw [swapStep_fail_backup o root sid p₀ hc₀ rest st dA (hab p₀ hp0) (hba p₀ hp0)
          hsaEIO hdA]
        obtain ⟨st', hrun, hrev, hskip, herr⟩ := ih
          { st with
            fs := fsSet (fsRemove (fsSet (fsRemove st.fs (root ++ "/" ++ p₀))
                    (root ++ "/" ++ p₀ ++ ".bak-" ++ sid) dA)
                  (root ++ "/" ++ p₀ ++ ".bak-" ++ sid)) (root ++ "/" ++ p₀) dA
            backups := st.backups ++ [(root ++ "/" ++ p₀, root ++ "/" ++ p₀ ++ ".bak-" ++ sid)]
            skipped := st.skipped ++ [p₀]
            errors := st.errors ++ [(p₀, "EIO")] }
          (fun q hq => hab q (hmem q hq)) (fun q hq => hba q (hmem q hq))
          (fun q hq => hsa q (hmem q hq))
          (by
            intro q hq
            rw [fsExists_set_ne _ _ _ _ (hd1 p₀ hp0 q (hmem q hq)),
              fsExists_remove_ne _ _ _ (hd2 p₀ hp0 q (hmem q hq)),
              fsExists_set_ne _ _ _ _ (hd2 p₀ hp0 q (hmem q hq)),
              fsExists_remove_ne _ _ _ (hd1 p₀ hp0 q (hmem q hq))]
            exact hex q (hmem q hq))
          (fun p hp q hq => hd1 p (hmem p hp) q (hmem q hq))
          (fun p hp q hq => hd2 p (hmem p hp) q (hmem q hq)) hndc.2
        refine ⟨st', hrun, ?_, ?_, ?_⟩
        · rw [hrev]; simp [List.filter_cons, hF]
        · rw [hskip]; simp [List.filter_cons, hF]
        · rw [herr]; simp [List.filter_cons, hF]
      · have hA' : fsExists st.fs (root ++ "/" ++ p₀) = false := by simpa using hA
        by_cases hB : fsExists st.fs (root ++ "/" ++ p₀ ++ ".bak-" ++ sid) = true
        · obtain ⟨dB, hdB⟩ := Option.isSome_iff_exists.mp hB
          rw [swapStep_fail_stray o root sid p₀ hc₀ rest st dB (hba p₀ hp0) hsaEIO hA' hdB]
          obtain ⟨st', hrun, hrev, hskip, herr⟩ := ih
            { st with
              fs := fsSet (fsRemove st.fs (root ++ "/" ++ p₀ ++ ".bak-" ++ sid))
                (root ++ "/" ++ p₀) dB
              skipped := st.skipped ++ [p₀]
              errors := st.errors ++ [(p₀, "EIO")] }
            (fun q hq => hab q (hmem q hq)) (fun q hq => hba q (hmem q hq))
            (fun q hq => hsa q (hmem q hq))
            (by
              intro q hq
              rw [fsExists_set_ne _ _ _ _ (hd1 p₀ hp0 q (hmem q hq)),
                fsExists_remove_ne _ _ _ (hd2 p₀ hp0 q (hmem q hq))]
              exact hex q (hmem q hq))
            (fun p hp q hq => hd1 p (hmem p hp) q (hmem q hq))
            (fun p hp q hq => hd2 p (hmem p hp) q (hmem q hq)) hndc.2
          refine ⟨st', hrun, ?_, ?_, ?_⟩
          · rw [hrev]; simp [List.filter_cons, hF]
          · rw [hskip]; simp [List.filter_cons, hF]
          · rw [herr]; simp [List.filter_cons, hF]
        · have hB' : fsExists st.fs (root ++ "/" ++ p₀ ++ ".bak-" ++ sid) = false := by
            simpa using hB
          rw [swapStep_fail_nobackup o root sid p₀ hc₀ rest st hsaEIO hA' hB']
          obtain ⟨st', hrun, hrev, hskip, herr⟩ := ih
            { st with skipped := st.skipped ++ [p₀], errors := st.errors ++ [(p₀, "EIO")] }
            (fun q hq => hab q (hmem q hq)) (fun q hq => hba q (hmem q hq))
            (fun q hq => hsa q (hmem q hq))
            (fun q hq => hex q (hmem q hq))
            (fun p hp q hq => hd1 p (hmem p hp) q (hmem q hq))
            (fun p hp q hq => hd2 p (hmem p hp) q (hmem q hq)) hndc.2
          refine ⟨st', hrun, ?_, ?_, ?_⟩
          · rw [hrev]; simp [List.filter_cons, hF]
          · rw [hskip]; simp [List.filter_cons, hF]
          · rw [herr]; simp [List.filter_cons, hF]
    · -- the into-place rename of p₀ succeeds
      have hF' : F p₀ = false := by simpa using hF
      have hsaNone : o.renameErr (root ++ "/.snapback-rollback-" ++ sid ++ "/" ++ p₀)
          (root ++ "/" ++ p₀) = none := by rw [hsa p₀ hp0, if_neg (by simp [hF'])]
      by_cases hA : fsExists st.fs (root ++ "/" ++ p₀) = true
      · obtain ⟨dA, hdA⟩ := Option.isSome_iff_exists.mp hA
        obtain ⟨dS, hdS0⟩ := Option.isSome_iff_exists.mp (hex p₀ hp0)
        have hdS : fsLookup (fsSet (fsRemove st.fs (root ++ "/" ++ p₀))
            (root ++ "/" ++ p₀ ++ ".bak-" ++ sid) dA)
            (root ++ "/.snapback-rollback-" ++ sid ++ "/" ++ p₀) = some dS := by
          rw [fsLookup_set_ne _ _ _ _ (hd2 p₀ hp0 p₀ hp0),
            fsLookup_remove_ne _ _ _ (hd1 p₀ hp0 p₀ hp0)]
          exact hdS0
        rw [swapStep_ok_backup o root sid p₀ hc₀ rest st dA dS (hab p₀ hp0) hsaNone hdA hdS]
        obtain ⟨st', hrun, hrev, hskip, herr⟩ := ih
          { st with
            fs := fsSet (fsRemove (fsSet (fsRemove st.fs (root ++ "/" ++ p₀))
                    (root ++ "/" ++ p₀ ++ ".bak-" ++ sid) dA)
                  (root ++ "/.snapback-rollback-" ++ sid ++ "/" ++ p₀)) (root ++ "/" ++ p₀) dS
            backups := st.backups ++ [(root ++ "/" ++ p₀, root ++ "/" ++ p₀ ++ ".bak-" ++ sid)]
            reverted := st.reverted ++ [p₀] }
          (fun q hq => hab q (hmem q hq)) (fun q hq => hba q (hmem q hq))
          (fun q hq => hsa q (hmem q hq))
          (by
            intro q hq
            rw [fsExists_set_ne _ _ _ _ (hd1 p₀ hp0 q (hmem q hq)),
              fsExists_remove_ne _ _ _ (hqS q hq),
              fsExists_set_ne _ _ _ _ (hd2 p₀ hp0 q (hmem q hq)),
              fsExists_remove_ne _ _ _ (hd1 p₀ hp0 q (hmem q hq))]
            exact hex q (hmem q hq))
          (fun p hp q hq => hd1 p (hmem p hp) q (hmem q hq))
          (fun p hp q hq => hd2 p (hmem p hp) q (hmem q hq)) hndc.2
        refine ⟨st', hrun, ?_, ?_, ?_⟩
        · rw [hrev]; simp [List.filter_cons, hF']
        · rw [hskip]; simp [List.filter_cons, hF']
        · rw [herr]; simp [List.filter_cons, hF']
      · have hA' : fsExists st.fs (root ++ "/" ++ p₀) = false := by simpa using hA
        obtain ⟨dS, hdS0⟩ := Option.isSome_iff_exists.mp (hex p₀ hp0)
        rw [swapStep_ok_nobackup o root sid p₀ hc₀ rest st dS hsaNone hA' hdS0]
        obtain ⟨st', hrun, hrev, hskip, herr⟩ := ih
          { st with
            fs := fsSet (fsRemove st.fs (root ++ "/.snapback-rollback-" ++ sid ++ "/" ++ p₀))
              (root ++ "/" ++ p₀) dS
            reverted := st.reverted ++ [p₀] }
          (fun q hq => hab q (hmem q hq)) (fun q hq => hba q (hmem q hq))
          (fun q hq => hsa q (hmem q hq))
          (by
            intro q hq
            rw [fsExists_set_ne _ _ _ _ (hd1 p₀ hp0 q (hmem q hq)),
              fsExists_remove_ne _ _ _ (hqS q hq)]
            exact hex q (hmem q hq))
          (fun p hp q hq => hd1 p (hmem p hp) q (hmem q hq))
          (fun p hp q hq => hd2 p (hmem p hp) q (hmem q hq)) hndc.2
        refine ⟨st', hrun, ?_, ?_, ?_⟩
        · rw [hrev]; simp [List.filter_cons, hF']
        · rw [hskip]; simp [List.filter_cons, hF']
        · rw [herr]; simp [List.filter_cons, hF']

/-- C3 (amended): when some staged files fail their into-place rename with
per-file I/O errors while the others succeed, the swap phase continues with
the remaining files and accounts per file: the failing paths end up in
`filesSkipped` with entries in `errors`, the others in `filesReverted` —
but `success` is `false` whenever at least one per-file error occurred
(`atomicSwap` computes it as `errors.length === 0`), not `true`. -/
theorem atomicSwap_per_file_accounting (o : Oracle) (root sid : String) (F : String → Bool)
    (staged : List (String × String × Bytes)) (fs : FS FData)
    (hab : ∀ p ∈ staged.map (·.1),
      o.renameErr (root ++ "/" ++ p) (root ++ "/" ++ p ++ ".bak-" ++ sid) = none)
    (hba : ∀ p ∈ staged.map (·.1),
      o.renameErr (root ++ "/" ++ p ++ ".bak-" ++ sid) (root ++ "/" ++ p) = none)
    (hsa : ∀ p ∈ staged.map (·.1),
      o.renameErr (root ++ "/.snapback-rollback-" ++ sid ++ "/" ++ p) (root ++ "/" ++ p) =
        (if F p then some "EIO" else none))
    (hex : ∀ p ∈ staged.map (·.1),
      fsExists fs (root ++ "/.snapback-rollback-" ++ sid ++ "/" ++ p) = true)
    (hd1 : ∀ p ∈ staged.map (·.1), ∀ q ∈ staged.map (·.1),
      root ++ "/.snapback-rollback-" ++ sid ++ "/" ++ q ≠ root ++ "/" ++ p)
    (hd2 : ∀ p ∈ staged.map (·.1), ∀ q ∈ staged.map (·.1),
      root ++ "/.snapback-rollback-" ++ sid ++ "/" ++ q ≠ root ++ "/" ++ p ++ ".bak-" ++ sid)
    (hnd : (staged.map (·.1)).Nodup) :
    (∃ bk fs', atomicSwap o root sid staged [] [] fs =
      ({ success := ((staged.map (·.1)).filter F).isEmpty
         reverted := (staged.map (·.1)).filter (fun p => !F p)
         skipped := (staged.map (·.1)).filter F
         errors := ((staged.map (·.1)).filter F).map (fun p => (p, "EIO")) }, bk, fs')) ∧
    ((staged.map (·.1)).filter F ≠ [] →
      (atomicSwap o root sid staged [] [] fs).1.success = false) := by
  obtain ⟨st', hrun, hrev, hskip, herr⟩ := swapStagedGo_accounting o root sid F staged
    { backups := [], reverted := [], skipped := [], errors := [], fs := fs }
    hab hba hsa hex hd1 hd2 hnd
  have hmapEmpty : ∀ (l : List String),
      ((l.map (fun p => (p, "EIO"))).isEmpty) = l.isEmpty := by
    intro l; cases l <;> rfl
  have hout : atomicSwap o root sid staged [] [] fs =
      ({ success := ((staged.map (·.1)).filter F).isEmpty
         reverted := (staged.map (·.1)).filter (fun p => !F p)
         skipped := (staged.map (·.1)).filter F
         errors := ((staged.map (·.1)).filter F).map (fun p => (p, "EIO")) },
       st'.backups, st'.fs) := by
    simp only [atomicSwap, hrun, swapDeletesGo]
    rw [hrev, hskip, herr]
    simp [hmapEmpty]
  refine ⟨⟨st'.backups, st'.fs, hout⟩, fun hne => ?_⟩
  rw [hout]
  simpa using hne

/-- The workspace and staging tree for the concrete accounting scenario. -/
def demoSwapFS : FS FData :=
  [("/w/.snapback-rollback-s1/a", .raw [10]), ("/w/.snapback-rollback-s1/b", .raw [11]),
   ("/w/a", .raw [1]), ("/w/b", .raw [2])]

/-- Witness for C3 (amended): the concrete two-file swap in which `a` fails
and `b` succeeds. -/
theorem atomicSwap_accounting_witness :
    (∃ bk fs', atomicSwap oracleFailSwapA "/w" "s1"
        [("a", "hA", [10]), ("b", "hB", [11])] [] [] demoSwapFS =
      ({ success := false, reverted := ["b"], skipped := ["a"],
         errors := [("a", "EIO")] }, bk, fs')) ∧
    (atomicSwap oracleFailSwapA "/w" "s1"
        [("a", "hA", [10]), ("b", "hB", [11])] [] [] demoSwapFS).1.success = false :=
  have T := atomicSwap_per_file_accounting oracleFailSwapA "/w" "s1" (fun p => p == "a")
    [("a", "hA", [10]), ("b", "hB", [11])] demoSwapFS (by decide) (by decide) (by decide)
    (by decide) (by decide) (by decide) (by decide)
  ⟨T.1, T.2 (by decide)⟩

/-! ## Theorems for C4 -/

/-- A path joined under a directory lies under that directory. -/
theorem underDir_join (dir rest : String) : underDir dir (dir ++ "/" ++ rest) = true := by
  simp only [underDir, Bool.or_eq_true]
  right
  rw [String.data_append]
  exact List.isPrefixOf_iff_prefix.mpr (List.prefix_append _ _)

/-- Lookup through a key-predicate filter. -/
theorem fsLookup_filterKeys (cond : String → Bool) (fs : FS α) (p : String) :
    fsLookup (fs.filter (fun e => !(cond e.1))) p =
      if cond p then none else fsLookup fs p := by
  induction fs with
  | nil => by_cases hc : cond p <;> simp [fsLookup, hc]
  | cons e t ih =>
    obtain ⟨k, v⟩ := e
    by_cases hk : cond k
    · have hdrop : List.filter (fun e => !(cond e.1)) ((k, v) :: t) =
          List.filter (fun e => !(cond e.1)) t := by simp [List.filter_cons, hk]
      rw [hdrop, ih]
      by_cases hkp : k = p
      · subst hkp; simp [hk]
      · by_cases hcp : cond p <;> simp [hcp, fsLookup_cons_ne _ _ _ _ hkp]
    · have hkeep : List.filter (fun e => !(cond e.1)) ((k, v) :: t) =
          (k, v) :: List.filter (fun e => !(cond e.1)) t := by simp [List.filter_cons, hk]
      rw [hkeep]
      by_cases hkp : k = p
      · subst hkp; simp [hk, fsLookup_cons_self]
      · rw [fsLookup_cons_ne _ _ _ _ hkp, fsLookup_cons_ne _ _ _ _ hkp, ih]

/-- Lookup after `cleanupStaging`. -/
theorem fsLookup_cleanup (sd : String) (fs : FS FData) (p : String) :
    fsLookup (cleanupStaging sd fs) p = if underDir sd p then none else fsLookup fs p :=
  fsLookup_filterKeys (underDir sd) fs p

/-- A successful `stageChange` only writes below the staging directory. -/
theorem stageChange_fs_frame (o : Oracle) (bget : String → BRes (Option Bytes))
    (sd : String) (change : SessionChange) (st : StageSt) (p : String)
    (hp : underDir sd p = false) :
    ∀ st', stageChange o bget sd change st = .ok st' → fsLookup st'.fs p = fsLookup st.fs p := by
  intro st' h
  simp only [stageChange] at h
  by_cases hdel : change.op = .deleted
  · rw [if_pos hdel] at h
    cases h
    rfl
  · rw [if_neg hdel] at h
    cases hn : change.hNew with
    | none => simp only [hn] at h; exact absurd h (by simp)
    | some hash =>
      simp only [hn] at h
      cases hb : bget hash with
      | err c m => simp only [hb] at h; exact absurd h (by simp)
      | ok ob =>
        cases ob with
        | none => simp only [hb] at h; exact absurd h (by simp)
        | some content =>
          simp only [hb, fsWriteFile] at h
          by_cases hw : o.writeErr (sd ++ "/" ++ change.p)
          · simp only [hw, if_true] at h; exact absurd h (by simp)
          · simp only [hw, Bool.false_eq_true, if_false] at h
            cases h
            have hne : p ≠ sd ++ "/" ++ change.p := by
              intro he
              rw [he, underDir_join] at hp
              exact absurd hp (by simp)
            exact fsLookup_set_ne _ _ _ _ hne

/-- The staging loop only writes below the staging directory. -/
theorem stageLoop_fs_frame (o : Oracle) (bget : String → BRes (Option Bytes)) (sd : String)
    (changes : List SessionChange) :
    ∀ (st : StageSt) (p : String), underDir sd p = false →
      fsLookup (stageLoop o bget sd changes st).fs p = fsLookup st.fs p := by
  induction changes with
  | nil => intro st p _; rfl
  | cons c rest ih =>
    intro st p hp
    simp only [stageLoop]
    cases hsc : stageChange o bget sd c st with
    | ok st' => rw [ih st' p hp, stageChange_fs_frame o bget sd c st p hp st' hsc]
    | error e => rw [ih _ p hp]

/-- The state after `rollback`'s journal write and staging loop (steps 1-5
of the algorithm), under the error-free oracle; definitionally the prefix
of `rollbackBody`. -/
def stagePhase (o : Oracle) (bget : String → BRes (Option Bytes))
    (workspaceRoot journalDir : String) (manifest : Manifest) (now : Nat)
    (fs : FS FData) : StageSt :=
  stageLoop o bget (stagingDirOf workspaceRoot manifest.sessionId)
    (reverseChanges manifest.filesChanged)
    { staged := [], toDelete := [], skipped := [], errors := []
      fs := fsSet fs (pendingJournalPath journalDir manifest.sessionId)
        (.journalData
          { sessionId := manifest.sessionId, timestamp := now,
            workspaceRoot := workspaceRoot, changes := manifest.filesChanged,
            backups := [], status := .pending }) }

/-- C4: without `skipVerification`, if the SHA-256 recomputed over any
staged blob differs from its expected digest, the rollback aborts before
the swap phase: the result has `success = false` with every mismatching
path in `filesSkipped`; the journal is left with status `rolled-back`; the
staging directory is removed; and no workspace file outside the staging
directory (and the journal file) is renamed, overwritten or deleted.
(Error-free I/O oracle: the claim concerns hash mismatches, not I/O
failures.) -/
theorem rollback_aborts_on_hash_mismatch (bget : String → BRes (Option Bytes))
    (root jdir : String) (manifest : Manifest) (options : RollbackOptions) (now : Nat)
    (fs : FS FData)
    (hskip : options.skipVerification = false)
    (hv : validateStaging (stagePhase errFree bget root jdir manifest now fs).staged ≠ []) :
    (rollback errFree bget root jdir manifest options now fs).1.success = false ∧
    (∀ e ∈ validateStaging (stagePhase errFree bget root jdir manifest now fs).staged,
      e.1 ∈ (rollback errFree bget root jdir manifest options now fs).1.filesSkipped) ∧
    fsLookup (rollback errFree bget root jdir manifest options now fs).2
        (pendingJournalPath jdir manifest.sessionId) =
      some (.journalData
        { sessionId := manifest.sessionId, timestamp := now, workspaceRoot := root,
          changes := manifest.filesChanged, backups := [], status := .rolledBack }) ∧
    (∀ p, p ≠ pendingJournalPath jdir manifest.sessionId →
      underDir (stagingDirOf root manifest.sessionId) p = false →
      fsLookup (rollback errFree bget root jdir manifest options now fs).2 p =
        fsLookup fs p) ∧
    (∀ p, p ≠ pendingJournalPath jdir manifest.sessionId →
      underDir (stagingDirOf root manifest.sessionId) p = true →
      fsLookup (rollback errFree bget root jdir manifest options now fs).2 p = none) := by
  have hsp : stagePhase errFree bget root jdir manifest now fs =
      stageLoop errFree bget (stagingDirOf root manifest.sessionId)
        (reverseChanges manifest.filesChanged)
        { staged := [], toDelete := [], skipped := [], errors := []
          fs := fsSet fs (pendingJournalPath jdir manifest.sessionId)
            (.journalData
              { sessionId := manifest.sessionId, timestamp := now,
                workspaceRoot := root, changes := manifest.filesChanged,
                backups := [], status := .pending }) } := rfl
  have hrb : rollback errFree bget root jdir manifest options now fs =
      ({ success := false
         filesReverted := []
         filesSkipped := (stagePhase errFree bget root jdir manifest now fs).skipped ++
           (validateStaging (stagePhase errFree bget root jdir manifest now fs).staged).map (·.1)
         errors := (stagePhase errFree bget root jdir manifest now fs).errors ++
           validateStaging (stagePhase errFree bget root jdir manifest now fs).staged
         journalPath := some (pendingJournalPath jdir manifest.sessionId) },
       fsSet (cleanupStaging (stagingDirOf root manifest.sessionId)
           (stagePhase errFree bget root jdir manifest now fs).fs)
         (pendingJournalPath jdir manifest.sessionId)
         (.journalData
           { sessionId := manifest.sessionId, timestamp := now, workspaceRoot := root,
             changes := manifest.filesChanged, backups := [], status := .rolledBack })) := by
    have hwf : ∀ p, errFree.writeErr p = false := fun _ => rfl
    simp only [rollback, rollbackBody, fsWriteFile, hwf, Bool.false_eq_true, if_false, hskip]
    rw [← hsp]
    rw [if_pos hv]
  rw [hrb]
  refine ⟨rfl, ?_, ?_, ?_, ?_⟩
  · intro e he
    simp only [List.mem_append, List.mem_map]
    right
    exact ⟨e, he, rfl⟩
  · exact fsLookup_set_self _ _ _
  · intro p hpj hps
    rw [fsLookup_set_ne _ _ _ _ hpj, fsLookup_cleanup, hps, if_neg (by simp), hsp,
      stageLoop_fs_frame _ _ _ _ _ _ hps,
      fsLookup_set_ne _ _ _ _ hpj]
  · intro p hpj hps
    rw [fsLookup_set_ne _ _ _ _ hpj, fsLookup_cleanup, hps, if_pos rfl]

/-- A one-change manifest whose pre-session blob is corrupted: the store
returns bytes whose SHA-256 is not the requested digest `"bad"`. -/
def badManifest : Manifest :=
  { sessionId := "s2"
    filesChanged := [{ p := "x", op := .modified, hOld := some "bad", hNew := some "h2" }] }

/-- The corrupted blob store. -/
def badBget : String → BRes (Option Bytes) := fun h =>
  if h = "bad" then .ok (some [1, 2]) else .ok none

/-- Witness for C4: the corrupted one-change rollback aborts with
`success = false` and leaves the journal `rolled-back`. -/
theorem rollback_aborts_witness :
    (rollback errFree badBget "/w" "/w/.sb_journal" badManifest {} 99
        [("/w/x", .raw [9])]).1.success = false ∧
    fsLookup (rollback errFree badBget "/w" "/w/.sb_journal" badManifest {} 99
        [("/w/x", .raw [9])]).2 (pendingJournalPath "/w/.sb_journal" badManifest.sessionId) =
      some (.journalData
        { sessionId := badManifest.sessionId, timestamp := 99, workspaceRoot := "/w",
          changes := badManifest.filesChanged, backups := [], status := .rolledBack }) :=
  have T := rollback_aborts_on_hash_mismatch badBget "/w" "/w/.sb_journal" badManifest {} 99
    [("/w/x", .raw [9])] rfl (by decide)
  ⟨T.1, T.2.2.1⟩

/-! ## Theorems for C2 and C9 -/

/-- C2 (code bug): after deferred hashing, a modified change whose
pre-session file exists still has `digestBefore` (`hOld`) empty — the code
never snapshots pre-session content at `track` time and
`computeDeferredHashes` only fills `hNew` (its body carries the TODO for
`hOld`) — while `hNew` *is* populated, showing the hashing did run. -/
theorem computeDeferredHashes_no_hOld :
    computeDeferredHashes (fun b => .ok (sha256Hex b)) "/w"
        [{ p := "a.txt", op := .modified }] [("/w/a.txt", .raw [65])] =
      [{ p := "a.txt", op := .modified, hNew := some (sha256Hex [65]) }] ∧
    (computeDeferredHashes (fun b => .ok (sha256Hex b)) "/w"
        [{ p := "a.txt", op := .modified }] [("/w/a.txt", .raw [65])]).map (·.hOld) =
      [none] := by
  exact ⟨rfl, rfl⟩

/-- C9 (code bug): tracking a path outside the workspace root stores a
`ChangeRecord` whose path contains `..` segments — `normalizePath` is just
`path.relative` and `track` performs none of the rejections (of `..`
segments, absolute prefixes, NUL bytes) that the spec's P8 and the repo's
own `validatePath` (src/utils/security.ts) prescribe. -/
theorem track_stores_dotdot :
    track (fun _ => false) "/work" [] "/etc/passwd" .modified {} =
      [{ p := "../etc/passwd", op := .modified }] ∧
    hasDotDotSegment "../etc/passwd" = true := by
  exact ⟨rfl, by decide⟩

/-! ## Theorems for C10 -/

/-- C10 (amended): `rollback` never throws — every internal exception of the
body is caught and appended to the result's `errors` under path
`"<session>"`; all other fields of the result, `success` included, are
returned exactly as they stood at the throw point (`success` is *not*
forced back to `false`). -/
theorem rollback_catches (o : Oracle) (bget : String → BRes (Option Bytes))
    (root jdir : String) (manifest : Manifest) (options : RollbackOptions) (now : Nat)
    (fs : FS FData) (e : String) (r : RollbackResult) (fs' : FS FData)
    (h : rollbackBody o bget root jdir manifest options now fs = .error (e, r, fs')) :
    rollback o bget root jdir manifest options now fs =
      ({ r with errors := r.errors ++ [("<session>", "Rollback failed: " ++ e)] }, fs') ∧
    (rollback o bget root jdir manifest options now fs).1.success = r.success ∧
    (rollback o bget root jdir manifest options now fs).1.filesReverted = r.filesReverted := by
  simp [rollback, h]

/-- The result object as it stood when the dry-run journal unlink threw. -/
def catchDemoResult : RollbackResult :=
  { success := true
    filesReverted := ["b", "a"]
    filesSkipped := []
    errors := []
    journalPath := some "/w/.sb_journal/pending/s1.json" }

/-- The filesystem as it stood at that throw. -/
def catchDemoFS : FS FData :=
  [("/w/.sb_journal/pending/s1.json",
    .journalData
      { sessionId := "s1"
        timestamp := 99
        workspaceRoot := "/w"
        changes := demoManifest.filesChanged
        backups := []
        status := .pending }),
   ("/w/a", .raw [1]), ("/w/b", .raw [2])]

/-- Witness for C10 (amended): the concrete dry-run scenario in which the
journal unlink throws after a successful dry run. -/
theorem rollback_catches_witness :
    rollbackBody oracleFailJournalUnlink demoBget "/w" "/w/.sb_journal" demoManifest
        { dryRun := true, skipVerification := true } 99 demoFS =
      .error ("EIO", catchDemoResult, catchDemoFS) ∧
    rollback oracleFailJournalUnlink demoBget "/w" "/w/.sb_journal" demoManifest
        { dryRun := true, skipVerification := true } 99 demoFS =
      ({ catchDemoResult with
         errors := catchDemoResult.errors ++ [("<session>", "Rollback failed: " ++ "EIO")] },
       catchDemoFS) :=
  ⟨by rfl,
   (rollback_catches oracleFailJournalUnlink demoBget "/w" "/w/.sb_journal" demoManifest
      { dryRun := true, skipVerification := true } 99 demoFS "EIO" catchDemoResult catchDemoFS
      (by rfl)).1⟩

/-- Counterexample for C10: a dry-run rollback in which unlinking the
journal throws *after* `success` was set `true`; the exception is reported
under `"<session>"` but `success` stays `true`, contradicting the claim's
"with success remaining false". -/
theorem rollback_catch_keeps_success :
    (rollback oracleFailJournalUnlink demoBget "/w" "/w/.sb_journal" demoManifest
        { dryRun := true, skipVerification := true } 99 demoFS).1.errors =
      [("<session>", "Rollback failed: EIO")] ∧
    (rollback oracleFailJournalUnlink demoBget "/w" "/w/.sb_journal" demoManifest
        { dryRun := true, skipVerification := true } 99 demoFS).1.success = true := by
  decide

end Snapback
